import Mathlib

/-!
Verification of the WMI CIM repository reader (`scripts/wmi_repository.py`).

Files are modelled as lists of byte values (`List Nat`, each entry `< 256`).
Reading from a file-like object at an offset is `(file.drop offset).take n`,
which - like Python's `read` - returns fewer bytes at end of file.  Fallible
parsing returns `Except` / `Option`; Python exceptions that escape the code
(`AttributeError`, `TypeError`, `IndexError`, `ValueError`) are explicit
error values, as are `ParseError`s the code raises itself.
-/

namespace WmiRepository

/-- Python-level outcomes that abort an operation: `ParseError` raised by the
code, plus uncaught `TypeError` / `AttributeError` / `IndexError` /
`ValueError`, plus fuel exhaustion of the shallow embedding (used only to
make recursion over untrusted page graphs total). -/
inductive PyErr where
  | parseError
  | typeError
  | attributeError
  | indexError
  | valueError
  | outOfFuel
deriving DecidableEq, Repr

/-- Read `count` bytes at `offset`; short reads at end of file are allowed,
like Python's `file_object.read`. -/
def readBytesAt (file : List Nat) (offset count : Nat) : List Nat :=
  (file.drop offset).take count

/-- Parse one little-endian unsigned 16-bit integer from the front of a byte
stream (`uint16le` in the dtfabric definitions). -/
def parseU16 : List Nat → Option (Nat × List Nat)
  | b0 :: b1 :: rest => some (b0 + 256 * b1, rest)
  | _ => none

/-- Parse one little-endian unsigned 32-bit integer from the front of a byte
stream (`uint32le` in the dtfabric definitions). -/
def parseU32 : List Nat → Option (Nat × List Nat)
  | b0 :: b1 :: b2 :: b3 :: rest =>
      some (b0 + 256 * b1 + 65536 * b2 + 16777216 * b3, rest)
  | _ => none

/-- Parse a sequence of `n` little-endian 16-bit integers. -/
def parseU16Seq : Nat → List Nat → Option (List Nat × List Nat)
  | 0, rest => some ([], rest)
  | n + 1, data =>
      match parseU16 data with
      | none => none
      | some (v, rest) =>
          match parseU16Seq n rest with
          | none => none
          | some (vs, rest2) => some (v :: vs, rest2)

/-- Parse a sequence of `n` little-endian 32-bit integers. -/
def parseU32Seq : Nat → List Nat → Option (List Nat × List Nat)
  | 0, rest => some ([], rest)
  | n + 1, data =>
      match parseU32 data with
      | none => none
      | some (v, rest) =>
          match parseU32Seq n rest with
          | none => none
          | some (vs, rest2) => some (v :: vs, rest2)

/-- Encode a value as a little-endian unsigned 16-bit integer. -/
def encU16 (n : Nat) : List Nat :=
  [n % 256, n / 256 % 256]

/-- Encode a value as a little-endian unsigned 32-bit integer. -/
def encU32 (n : Nat) : List Nat :=
  [n % 256, n / 256 % 256, n / 65536 % 256, n / 16777216 % 256]

theorem parseU16_encU16 (n : Nat) (h : n < 65536) (rest : List Nat) :
    parseU16 (encU16 n ++ rest) = some (n, rest) := by
  simp only [encU16, List.cons_append, List.nil_append, parseU16]
  congr 1
  congr 1
  omega

theorem parseU32_encU32 (n : Nat) (h : n < 4294967296) (rest : List Nat) :
    parseU32 (encU32 n ++ rest) = some (n, rest) := by
  simp only [encU32, List.cons_append, List.nil_append, parseU32]
  congr 1
  congr 1
  omega

/-- Round trip for a whole table of 32-bit entries. -/
theorem parseU32Seq_encode (xs : List Nat) (h : ∀ x ∈ xs, x < 4294967296)
    (rest : List Nat) :
    parseU32Seq xs.length (xs.flatMap encU32 ++ rest) = some (xs, rest) := by
  induction xs with
  | nil => simp [parseU32Seq]
  | cons x xs ih =>
      have hx : x < 4294967296 := h x (List.mem_cons_self x xs)
      have hxs : ∀ y ∈ xs, y < 4294967296 := fun y hy => h y (List.mem_cons_of_mem x hy)
      simp only [List.length_cons, List.flatMap_cons, List.append_assoc, parseU32Seq]
      rw [parseU32_encU32 x hx]
      simp only [ih hxs]

/-! ## Mappings (`*.map`) file: `MappingFile` -/

/-- Errors raised while opening a mappings file.  The source raises
`ParseError` in every case; the message distinguishes an unsupported header
or footer signature (a format error) from `missing data` (a truncation
error), which we keep as separate constructors. -/
inductive MapError where
  | missingData
  | unsupportedHeaderSignature
  | unsupportedFooterSignature
deriving DecidableEq, Repr

/-- `cim_map_header`: signature, format version, number of pages. -/
structure CimMapHeader where
  signature : Nat
  format_version : Nat
  number_of_pages : Nat
deriving DecidableEq, Repr

/-- `MappingFile._ReadFileHeader` without the signature check:
`_ReadStructure` reads exactly 12 bytes (missing data otherwise) and maps
them as three `uint32le` values. -/
def readMapFileHeaderStruct (data : List Nat) :
    Except MapError (CimMapHeader × List Nat) :=
  match parseU32 data with
  | none => .error .missingData
  | some (sig, r1) =>
      match parseU32 r1 with
      | none => .error .missingData
      | some (ver, r2) =>
          match parseU32 r2 with
          | none => .error .missingData
          | some (pages, r3) => .ok (⟨sig, ver, pages⟩, r3)

/-- `MappingFile._HEADER_SIGNATURE`. -/
def MAP_HEADER_SIGNATURE : Nat := 0x0000abcd

/-- `MappingFile._FOOTER_SIGNATURE`. -/
def MAP_FOOTER_SIGNATURE : Nat := 0x0000dcba

/-- `MappingFile._ReadPageNumbersTable`: a `uint32le` entry count (with an
explicit missing-data check), then `count * 4` bytes of entries (again with
an explicit missing-data check), mapped as `count` `uint32le` page numbers. -/
def ReadPageNumbersTable (data : List Nat) :
    Except MapError (List Nat × List Nat) :=
  match parseU32 data with
  | none => .error .missingData
  | some (count, rest) =>
      if count = 0 then .ok ([], rest)
      else if rest.length < count * 4 then .error .missingData
      else
        match parseU32Seq count rest with
        | none => .error .missingData
        | some (entries, rest2) => .ok (entries, rest2)

/-- `MappingFile.Open`: header (with signature check), mappings table,
unknown entries table, footer (with signature check); returns the decoded
mappings.  `file_offset` is where the mappings file starts inside the
physical file. -/
def MappingFileOpen (file : List Nat) (file_offset : Nat) :
    Except MapError (List Nat) :=
  let data := file.drop file_offset
  match readMapFileHeaderStruct data with
  | .error e => .error e
  | .ok (header, r1) =>
      if header.signature ≠ MAP_HEADER_SIGNATURE then
        .error .unsupportedHeaderSignature
      else
        match ReadPageNumbersTable r1 with
        | .error e => .error e
        | .ok (mappings, r2) =>
            match ReadPageNumbersTable r2 with
            | .error e => .error e
            | .ok (_unknownEntries, r3) =>
                match parseU32 r3 with
                | none => .error .missingData
                | some (footerSig, _r4) =>
                    if footerSig ≠ MAP_FOOTER_SIGNATURE then
                      .error .unsupportedFooterSignature
                    else .ok mappings

/-- Byte encoding of a well-formed mappings file: header, mappings table,
unknown-entries table, footer. -/
def encodeMapFile (hsig fver npages : Nat) (maps unknowns : List Nat)
    (fsig : Nat) : List Nat :=
  encU32 hsig ++ encU32 fver ++ encU32 npages ++
  encU32 maps.length ++ maps.flatMap encU32 ++
  encU32 unknowns.length ++ unknowns.flatMap encU32 ++
  encU32 fsig

theorem ReadPageNumbersTable_encode (xs : List Nat)
    (hxs : ∀ x ∈ xs, x < 4294967296) (hlen : xs.length < 4294967296)
    (rest : List Nat) :
    ReadPageNumbersTable (encU32 xs.length ++ (xs.flatMap encU32 ++ rest)) =
      .ok (xs, rest) := by
  rw [ReadPageNumbersTable, parseU32_encU32 xs.length hlen]
  cases xs with
  | nil => simp [parseU32Seq]
  | cons x xs =>
      have hfit : ((x :: xs).flatMap encU32 ++ rest).length <
          (x :: xs).length * 4 → False := by
        intro hcon
        have hflat : ((x :: xs).flatMap encU32).length = (x :: xs).length * 4 := by
          induction (x :: xs) with
          | nil => simp
          | cons y ys ihy =>
              simp only [List.flatMap_cons, List.length_append, ihy,
                List.length_cons, encU32, List.length_cons, List.length_nil]
              ring
        rw [List.length_append, hflat] at hcon
        omega
      simp only [List.length_cons, Nat.succ_ne_zero, if_false]
      rw [if_neg (by intro hcon; exact hfit hcon)]
      have hseq := parseU32Seq_encode (x :: xs) hxs rest
      simp only [List.length_cons] at hseq
      rw [hseq]

theorem readMapFileHeaderStruct_encode (a b c : Nat) (ha : a < 4294967296)
    (hb : b < 4294967296) (hc : c < 4294967296) (rest : List Nat) :
    readMapFileHeaderStruct (encU32 a ++ (encU32 b ++ (encU32 c ++ rest))) =
      .ok (⟨a, b, c⟩, rest) := by
  rw [readMapFileHeaderStruct, parseU32_encU32 a ha]
  simp only [parseU32_encU32 b hb, parseU32_encU32 c hc]

/-- **C4.** Opening a mapping (`*.map`) file fails with a format error when
the header signature differs from `0x0000ABCD` or the footer signature
differs from `0x0000DCBA`, fails with a truncation (`missing data`) error
when a declared entry count implies more bytes than remain in the file, and
otherwise succeeds and produces the mapping table. -/
theorem mappingFileOpen_spec (hsig fver npages fsig : Nat)
    (maps unknowns : List Nat)
    (hhs : hsig < 4294967296) (hfv : fver < 4294967296)
    (hnp : npages < 4294967296) (hfs : fsig < 4294967296)
    (hm : ∀ x ∈ maps, x < 4294967296) (hml : maps.length < 4294967296)
    (hu : ∀ x ∈ unknowns, x < 4294967296)
    (hul : unknowns.length < 4294967296) :
    (hsig ≠ MAP_HEADER_SIGNATURE →
      MappingFileOpen (encodeMapFile hsig fver npages maps unknowns fsig) 0 =
        .error .unsupportedHeaderSignature) ∧
    (hsig = MAP_HEADER_SIGNATURE → fsig ≠ MAP_FOOTER_SIGNATURE →
      MappingFileOpen (encodeMapFile hsig fver npages maps unknowns fsig) 0 =
        .error .unsupportedFooterSignature) ∧
    (hsig = MAP_HEADER_SIGNATURE → fsig = MAP_FOOTER_SIGNATURE →
      MappingFileOpen (encodeMapFile hsig fver npages maps unknowns fsig) 0 =
        .ok maps) ∧
    (∀ count tail, 0 < count → count < 4294967296 →
      tail.length < count * 4 →
      MappingFileOpen
        (encU32 hsig ++ (encU32 fver ++ (encU32 npages ++
          (encU32 count ++ tail)))) 0 =
        (if hsig = MAP_HEADER_SIGNATURE then .error .missingData
         else .error .unsupportedHeaderSignature)) := by
  have hnorm : encodeMapFile hsig fver npages maps unknowns fsig =
      encU32 hsig ++ (encU32 fver ++ (encU32 npages ++
        (encU32 maps.length ++ (maps.flatMap encU32 ++
          (encU32 unknowns.length ++ (unknowns.flatMap encU32 ++
            encU32 fsig)))))) := by
    simp [encodeMapFile]
  refine ⟨?_, ?_, ?_, ?_⟩
  · intro hne
    rw [MappingFileOpen, hnorm]
    simp only [List.drop_zero]
    rw [readMapFileHeaderStruct_encode hsig fver npages hhs hfv hnp]
    simp only [hne, if_true, ite_not]
    simp [hne]
  · intro heq hne
    rw [MappingFileOpen, hnorm]
    simp only [List.drop_zero]
    rw [readMapFileHeaderStruct_encode hsig fver npages hhs hfv hnp]
    have hfoot := parseU32_encU32 fsig hfs []
    rw [List.append_nil] at hfoot
    simp only [heq, ne_eq, not_true_eq_false, if_false, ite_false,
      ReadPageNumbersTable_encode maps hm hml,
      ReadPageNumbersTable_encode unknowns hu hul, hfoot]
    simp [hne]
  · intro heq hfeq
    rw [MappingFileOpen, hnorm]
    simp only [List.drop_zero]
    rw [readMapFileHeaderStruct_encode hsig fver npages hhs hfv hnp]
    have hfoot := parseU32_encU32 fsig hfs []
    rw [List.append_nil] at hfoot
    simp only [heq, ne_eq, not_true_eq_false, if_false, ite_false,
      ReadPageNumbersTable_encode maps hm hml,
      ReadPageNumbersTable_encode unknowns hu hul, hfoot]
    simp [hfeq]
  · intro count tail hpos hcount htail
    have hc0 : ¬ count = 0 := by omega
    rw [MappingFileOpen]
    simp only [List.drop_zero]
    rw [readMapFileHeaderStruct_encode hsig fver npages hhs hfv hnp]
    by_cases hh : hsig = MAP_HEADER_SIGNATURE
    · simp only [hh, ne_eq, not_true_eq_false, if_false, ite_false, ite_true]
      rw [ReadPageNumbersTable, parseU32_encU32 count hcount]
      simp [hc0, htail]
    · simp [hh]

/-- Concrete instantiation of `mappingFileOpen_spec`: the spec's scenario
mapping file (`signature=0xABCD, format_version=1, number_of_pages=3`,
entries `[5, 0xFFFFFFFF, 9]`, footer `0xDCBA`) opens successfully and
produces the mapping table. -/
theorem mappingFileOpen_spec_witness :
    MappingFileOpen
        (encodeMapFile 43981 1 3 [5, 4294967295, 9] [] 56506) 0 =
      .ok [5, 4294967295, 9] :=
  (mappingFileOpen_spec 43981 1 3 56506 [5, 4294967295, 9] []
    (by decide) (by decide) (by decide) (by decide)
    (by decide) (by decide) (by decide) (by decide)).2.2.1 rfl rfl

/-! ## Index binary-tree pages: `IndexBinaryTreePage.ReadPage` -/

/-- `PAGE_SIZE` of both `IndexBinaryTreePage` and `ObjectsDataPage`. -/
def PAGE_SIZE : Nat := 8192

/-- A `dtfabric` mapping failure or an explicit missing-data check raises
`ParseError` in the source. -/
def orParseError : Option α → Except PyErr α
  | none => .error .parseError
  | some a => .ok a

/-- A Python list index out of range raises `IndexError`. -/
def orIndexError : Option α → Except PyErr α
  | none => .error .indexError
  | some a => .ok a

/-- Decode a byte sequence as a string, one character per byte (the page
value table stores NUL-terminated strings). -/
def bytesToString (bs : List Nat) : String :=
  String.mk (bs.map Char.ofNat)

/-- `construct.CString`: the bytes before the first NUL terminator; fails
when no terminator is found before the end of the buffer. -/
def parseCString : List Nat → Option (List Nat)
  | [] => none
  | b :: rest =>
      if b = 0 then some []
      else (parseCString rest).map (fun tl => b :: tl)

/-- Apply a fallible function to every list element in order, failing as
soon as one application fails (a Python for-loop that raises). -/
def mapOption (f : α → Option β) : List α → Option (List β)
  | [] => some []
  | a :: l =>
      match f a with
      | none => none
      | some b => (mapOption f l).map (fun bs => b :: bs)

theorem mapOption_length (f : α → Option β) :
    ∀ (l : List α) (l2 : List β), mapOption f l = some l2 →
      l2.length = l.length := by
  intro l
  induction l with
  | nil => intro l2 h; simp [mapOption] at h; simp [h.symm]
  | cons a l ih =>
      intro l2 h
      rw [mapOption] at h
      cases hf : f a with
      | none => rw [hf] at h; simp at h
      | some b =>
          rw [hf] at h
          cases hm : mapOption f l with
          | none => simp [hm] at h
          | some bs =>
              simp [hm] at h
              subst h
              simp [ih bs hm]

/-- `cim_page_key`, decoded at a word-granular offset inside the key data:
a `uint16le` segment count followed by that many `uint16le` segment
indices. -/
def parsePageKey (keyData : List Nat) (keyOffset : Nat) : Option (List Nat) :=
  match parseU16 (keyData.drop (keyOffset * 2)) with
  | none => none
  | some (nsegs, rest) => (parseU16Seq nsegs rest).map Prod.fst

/-- The decoded state of an `IndexBinaryTreePage` after `ReadPage`, plus
the number of bytes each optional section actually consumed (observable as
file-position advances in the source). -/
structure DecodedIndexPage where
  page_type : Nat
  mapped_page_number : Nat
  unknown1 : Nat
  root_page_number : Nat
  number_of_keys : Nat
  subPagesRaw : List Nat
  sub_pages : List Nat
  keys : List String
  keyOffsetsBytesRead : Nat
  keyDataBytesRead : Nat
  valueOffsetsBytesRead : Nat
  valueDataBytesRead : Nat
deriving DecidableEq, Repr

/-- `IndexBinaryTreePage._ReadHeader` via `_ReadStructure`: exactly 20
bytes mapped as five `uint32le` values (`page_type`, `mapped_page_number`,
`unknown1`, `root_page_number`, `number_of_keys`); parsing five `uint32le`
values fails exactly when fewer than 20 bytes remain, which is the
condition under which `_ReadStructure` raises `ParseError`. -/
def readIndexHeader (data : List Nat) :
    Except PyErr ((Nat × Nat × Nat × Nat × Nat) × List Nat) :=
    match parseU32Seq 5 data with
    | some ([page_type, mapped_page_number, unknown1, root_page_number,
        number_of_keys], rest) =>
        .ok ((page_type, mapped_page_number, unknown1, root_page_number,
          number_of_keys), rest)
    | _ => .error .parseError

/-- `IndexBinaryTreePage._ReadSubPages`: reads `number_of_keys + 1`
`uint32le` entries (the raw array; `dtfabric` raises on short data). -/
def readSubPagesArray (number_of_keys : Nat) (data : List Nat) :
    Except PyErr (List Nat × List Nat) :=
  match parseU32Seq (number_of_keys + 1) data with
  | none => .error .parseError
  | some (entries, rest) => .ok (entries, rest)

/-- `IndexBinaryTreePage._ReadKeyOffsets`: skipped entirely when
`number_of_keys == 0` (key offsets stay unset / `None`); otherwise
`number_of_keys` `uint16le` offsets.  Returns the offsets, the remaining
bytes and the number of bytes consumed. -/
def readKeyOffsets (number_of_keys : Nat) (data : List Nat) :
    Except PyErr (Option (List Nat) × List Nat × Nat) :=
  if number_of_keys = 0 then .ok (none, data, 0)
  else
    match parseU16Seq number_of_keys data with
    | none => .error .parseError
    | some (offs, rest) => .ok (some offs, rest, number_of_keys * 2)

/-- `IndexBinaryTreePage._ReadKeyData`: a `uint16le` word count, then twice
that many bytes of key data (short reads tolerated), then one
`cim_page_key` record per key offset.  When the size prefix is zero the
method returns early with no key segments.  When key offsets were never
read (`number_of_keys == 0`) but the size prefix is non-zero, the source
iterates `enumerate(None)` and raises `TypeError`. -/
def readKeyData (keyOffsets : Option (List Nat)) (data : List Nat) :
    Except PyErr (List (List Nat) × List Nat × Nat) :=
  match parseU16 data with
  | none => .error .parseError
  | some (kdSize, ra) =>
      if kdSize = 0 then .ok ([], ra, 2)
      else
        let keyData := ra.take (kdSize * 2)
        let rb := ra.drop (kdSize * 2)
        match keyOffsets with
        | none => .error .typeError
        | some offs =>
            match mapOption (parsePageKey keyData) offs with
            | none => .error .parseError
            | some segments => .ok (segments, rb, 2 + keyData.length)

/-- `IndexBinaryTreePage._ReadValueOffsets` via `_ReadOffsetsTable`: a
`uint16le` count (explicit missing-data check), then that many `uint16le`
offsets (explicit missing-data check). -/
def readValueOffsets (data : List Nat) :
    Except PyErr (List Nat × List Nat × Nat) :=
  match parseU16 data with
  | none => .error .parseError
  | some (count, rest) =>
      if count = 0 then .ok ([], rest, 2)
      else if (rest.take (count * 2)).length < count * 2 then .error .parseError
      else
        match parseU16Seq count rest with
        | none => .error .parseError
        | some (offs, rest2) => .ok (offs, rest2, 2 + count * 2)

/-- `IndexBinaryTreePage._ReadValueData`: a `uint16le` byte count, then
that many bytes of value data (short reads tolerated), then one
NUL-terminated string per recorded value offset. -/
def readValueData (valueOffsets : List Nat) (data : List Nat) :
    Except PyErr (List String × List Nat × Nat) :=
  match parseU16 data with
  | none => .error .parseError
  | some (vdSize, ra) =>
      if vdSize = 0 then .ok ([], ra, 2)
      else
        let valueData := ra.take vdSize
        let rb := ra.drop vdSize
        match mapOption
            (fun off => (parseCString (valueData.drop off)).map bytesToString)
            valueOffsets with
        | none => .error .parseError
        | some values => .ok (values, rb, 2 + valueData.length)

/-- Key reconstruction at the end of `IndexBinaryTreePage.ReadPage`:
`keys[i] = '\\' + '\\'.join(page_values[seg] for seg in segments[i])`; a
segment index outside the value table raises `IndexError`. -/
def buildIndexKeys (page_values : List String)
    (page_key_segments : List (List Nat)) : Except PyErr (List String) :=
  match mapOption (fun segs =>
      (mapOption (fun i => page_values[i]?) segs).map
        (fun parts => "\\" ++ String.intercalate "\\" parts))
      page_key_segments with
  | none => .error .indexError
  | some keys => .ok keys

/-- `IndexBinaryTreePage.ReadPage` over the bytes from the page offset to
the end of the file: header, optional unknown array (read without a length
check), sub-pages array, key offsets, key data, value offsets, value data,
trailing data (a trailing read of `-1` - sections one byte past the page
boundary - reads the remaining bytes; a size below `-1` raises
`ValueError` under Python 3 io semantics), then key reconstruction. -/
def ReadIndexPage (data : List Nat) : Except PyErr DecodedIndexPage :=
  match readIndexHeader data with
  | .error e => .error e
  | .ok ((page_type, mapped_page_number, unknown1, root_page_number,
      number_of_keys), r0) =>
    match readSubPagesArray number_of_keys
        (if 0 < number_of_keys then r0.drop (number_of_keys * 4) else r0) with
    | .error e => .error e
    | .ok (subPagesRaw, r2) =>
      match readKeyOffsets number_of_keys r2 with
      | .error e => .error e
      | .ok (keyOffsets, r3, keyOffsetsBytesRead) =>
        match readKeyData keyOffsets r3 with
        | .error e => .error e
        | .ok (page_key_segments, r4, keyDataBytesRead) =>
          match readValueOffsets r4 with
          | .error e => .error e
          | .ok (page_value_offsets, r5, valueOffsetsBytesRead) =>
            match readValueData page_value_offsets r5 with
            | .error e => .error e
            | .ok (page_values, _r6, valueDataBytesRead) =>
              if PAGE_SIZE + 1 < 20 +
                  (if 0 < number_of_keys then number_of_keys * 4 else 0) +
                  (number_of_keys + 1) * 4 + keyOffsetsBytesRead +
                  keyDataBytesRead + valueOffsetsBytesRead +
                  valueDataBytesRead then .error .valueError
              else
                match buildIndexKeys page_values page_key_segments with
                | .error e => .error e
                | .ok keys =>
                    .ok {
                      page_type := page_type
                      mapped_page_number := mapped_page_number
                      unknown1 := unknown1
                      root_page_number := root_page_number
                      number_of_keys := number_of_keys
                      subPagesRaw := subPagesRaw
                      sub_pages := subPagesRaw.filter
                        (fun p => p != 0 && p != 4294967295)
                      keys := keys
                      keyOffsetsBytesRead := keyOffsetsBytesRead
                      keyDataBytesRead := keyDataBytesRead
                      valueOffsetsBytesRead := valueOffsetsBytesRead
                      valueDataBytesRead := valueDataBytesRead }

/-! ## Facts about a successfully decoded index page -/

theorem parseU32Seq_length (n : Nat) :
    ∀ (d : List Nat) (vs r : List Nat), parseU32Seq n d = some (vs, r) → vs.length = n := by
  induction n with
  | zero => intro d vs r h; simp [parseU32Seq] at h; simp [h.1.symm]
  | succ n ih =>
      intro d vs r h
      rw [parseU32Seq] at h
      cases hp : parseU32 d with
      | none => rw [hp] at h; simp at h
      | some vr =>
          rw [hp] at h
          obtain ⟨v, rest⟩ := vr
          cases hq : parseU32Seq n rest with
          | none => simp [hq] at h
          | some vsr =>
              obtain ⟨vs2, rest2⟩ := vsr
              simp [hq] at h
              obtain ⟨h1, h2⟩ := h
              subst h1
              simp [List.length_cons, ih rest vs2 rest2 hq]

theorem readSubPagesArray_ok (number_of_keys : Nat) (data raw rest : List Nat)
    (h : readSubPagesArray number_of_keys data = .ok (raw, rest)) :
    raw.length = number_of_keys + 1 := by
  rw [readSubPagesArray] at h
  cases hq : parseU32Seq (number_of_keys + 1) data with
  | none => rw [hq] at h; exact absurd h (by simp)
  | some vr =>
      obtain ⟨vs, r2⟩ := vr
      rw [hq] at h
      simp at h
      obtain ⟨h1, h2⟩ := h
      subst h1
      exact parseU32Seq_length _ _ _ _ hq

theorem readKeyOffsets_zero (data : List Nat) (o : Option (List Nat))
    (rest : List Nat) (kb : Nat)
    (h : readKeyOffsets 0 data = .ok (o, rest, kb)) :
    o = none ∧ rest = data ∧ kb = 0 := by
  rw [readKeyOffsets] at h
  simp at h
  exact ⟨h.1.symm, h.2.1.symm, h.2.2.symm⟩

theorem parseU16Seq_length (n : Nat) :
    ∀ (d : List Nat) (vs r : List Nat), parseU16Seq n d = some (vs, r) → vs.length = n := by
  induction n with
  | zero => intro d vs r h; simp [parseU16Seq] at h; simp [h.1.symm]
  | succ n ih =>
      intro d vs r h
      rw [parseU16Seq] at h
      cases hp : parseU16 d with
      | none => rw [hp] at h; simp at h
      | some vr =>
          rw [hp] at h
          obtain ⟨v, rest⟩ := vr
          cases hq : parseU16Seq n rest with
          | none => simp [hq] at h
          | some vsr =>
              obtain ⟨vs2, rest2⟩ := vsr
              simp [hq] at h
              obtain ⟨h1, h2⟩ := h
              subst h1
              simp [List.length_cons, ih rest vs2 rest2 hq]

theorem readKeyOffsets_pos (number_of_keys : Nat) (hn : number_of_keys ≠ 0)
    (data : List Nat) (o : Option (List Nat)) (rest : List Nat) (kb : Nat)
    (h : readKeyOffsets number_of_keys data = .ok (o, rest, kb)) :
    ∃ offs, o = some offs ∧ offs.length = number_of_keys ∧
      kb = number_of_keys * 2 := by
  rw [readKeyOffsets, if_neg hn] at h
  cases hq : parseU16Seq number_of_keys data with
  | none => rw [hq] at h; exact absurd h (by simp)
  | some vr =>
      obtain ⟨offs, r2⟩ := vr
      rw [hq] at h
      simp at h
      exact ⟨offs, h.1.symm, parseU16Seq_length _ _ _ _ hq, h.2.2.symm⟩

theorem readKeyData_none (data : List Nat) (segs : List (List Nat))
    (rest : List Nat) (kd : Nat)
    (h : readKeyData none data = .ok (segs, rest, kd)) :
    segs = [] ∧ kd = 2 := by
  rw [readKeyData] at h
  cases hp : parseU16 data with
  | none => rw [hp] at h; exact absurd h (by simp)
  | some vr =>
      obtain ⟨kdSize, ra⟩ := vr
      rw [hp] at h
      by_cases hz : kdSize = 0
      · simp [hz] at h
        exact ⟨h.1, h.2.2.symm⟩
      · simp [hz] at h

theorem readKeyData_ok (keyOffsets : Option (List Nat)) (data : List Nat)
    (segs : List (List Nat)) (rest : List Nat) (kd : Nat)
    (h : readKeyData keyOffsets data = .ok (segs, rest, kd)) :
    (segs = [] ∧ kd = 2) ∨
      (∃ offs, keyOffsets = some offs ∧ segs.length = offs.length) := by
  rw [readKeyData] at h
  cases hp : parseU16 data with
  | none => rw [hp] at h; exact absurd h (by simp)
  | some vr =>
      obtain ⟨kdSize, ra⟩ := vr
      rw [hp] at h
      by_cases hz : kdSize = 0
      · simp [hz] at h
        exact Or.inl ⟨h.1, h.2.2.symm⟩
      · dsimp only at h
        rw [if_neg hz] at h
        cases keyOffsets with
        | none => exact absurd h (by simp)
        | some offs =>
            dsimp only at h
            cases hm : mapOption (parsePageKey (ra.take (kdSize * 2))) offs with
            | none => rw [hm] at h; exact absurd h (by simp)
            | some segments =>
                rw [hm] at h
                simp at h
                refine Or.inr ⟨offs, rfl, ?_⟩
                rw [h.1.symm]
                exact mapOption_length _ _ _ hm

theorem readValueOffsets_ok (data offs rest : List Nat) (vo : Nat)
    (h : readValueOffsets data = .ok (offs, rest, vo)) : 2 ≤ vo := by
  rw [readValueOffsets] at h
  cases hp : parseU16 data with
  | none => rw [hp] at h; exact absurd h (by simp)
  | some vr =>
      obtain ⟨count, ra⟩ := vr
      rw [hp] at h
      dsimp only at h
      by_cases hz : count = 0
      · simp [hz] at h; omega
      · rw [if_neg hz] at h
        by_cases hlen : (ra.take (count * 2)).length < count * 2
        · rw [if_pos hlen] at h; exact absurd h (by simp)
        · rw [if_neg hlen] at h
          cases hq : parseU16Seq count ra with
          | none => rw [hq] at h; exact absurd h (by simp)
          | some vr2 =>
              obtain ⟨o2, r2⟩ := vr2
              rw [hq] at h
              simp at h
              omega

theorem readValueData_ok (valueOffsets data : List Nat) (values : List String)
    (rest : List Nat) (vd : Nat)
    (h : readValueData valueOffsets data = .ok (values, rest, vd)) : 2 ≤ vd := by
  rw [readValueData] at h
  cases hp : parseU16 data with
  | none => rw [hp] at h; exact absurd h (by simp)
  | some vr =>
      obtain ⟨vdSize, ra⟩ := vr
      rw [hp] at h
      dsimp only at h
      by_cases hz : vdSize = 0
      · simp [hz] at h; omega
      · rw [if_neg hz] at h
        cases hm : mapOption
            (fun off => (parseCString ((ra.take vdSize).drop off)).map bytesToString)
            valueOffsets with
        | none => rw [hm] at h; exact absurd h (by simp)
        | some vals =>
            rw [hm] at h
            simp at h
            omega

theorem buildIndexKeys_ok (page_values : List String)
    (page_key_segments : List (List Nat)) (keys : List String)
    (h : buildIndexKeys page_values page_key_segments = .ok keys) :
    keys.length = page_key_segments.length := by
  rw [buildIndexKeys] at h
  cases hm : mapOption (fun segs =>
      (mapOption (fun i => page_values[i]?) segs).map
        (fun parts => "\\" ++ String.intercalate "\\" parts))
      page_key_segments with
  | none => rw [hm] at h; exact absurd h (by simp)
  | some ks =>
      rw [hm] at h
      simp at h
      rw [h.symm]
      exact mapOption_length _ _ _ hm

theorem ReadIndexPage_ok_facts (data : List Nat) (p : DecodedIndexPage)
    (h : ReadIndexPage data = .ok p) :
    p.subPagesRaw.length = p.number_of_keys + 1 ∧
    p.sub_pages = p.subPagesRaw.filter (fun q => q != 0 && q != 4294967295) ∧
    (p.keys.length = p.number_of_keys ∨
      (p.keys = [] ∧ p.keyDataBytesRead = 2)) ∧
    (p.number_of_keys = 0 →
      p.keys = [] ∧ p.keyOffsetsBytesRead = 0 ∧ p.keyDataBytesRead = 2) ∧
    2 ≤ p.valueOffsetsBytesRead ∧ 2 ≤ p.valueDataBytesRead := by
  rw [ReadIndexPage] at h
  cases hh : readIndexHeader data with
  | error e => rw [hh] at h; exact absurd h (by simp)
  | ok v =>
    obtain ⟨⟨pt, mpn, u1, rpn, nk⟩, r0⟩ := v
    rw [hh] at h
    dsimp only at h
    cases hs : readSubPagesArray nk (if 0 < nk then r0.drop (nk * 4) else r0) with
    | error e => rw [hs] at h; exact absurd h (by simp)
    | ok v2 =>
      obtain ⟨raw, r2⟩ := v2
      rw [hs] at h
      dsimp only at h
      cases hko : readKeyOffsets nk r2 with
      | error e => rw [hko] at h; exact absurd h (by simp)
      | ok v3 =>
        obtain ⟨keyOffsets, r3, kob⟩ := v3
        rw [hko] at h
        dsimp only at h
        cases hkd : readKeyData keyOffsets r3 with
        | error e => rw [hkd] at h; exact absurd h (by simp)
        | ok v4 =>
          obtain ⟨segs, r4, kdb⟩ := v4
          rw [hkd] at h
          dsimp only at h
          cases hvo : readValueOffsets r4 with
          | error e => rw [hvo] at h; exact absurd h (by simp)
          | ok v5 =>
            obtain ⟨pvo, r5, vob⟩ := v5
            rw [hvo] at h
            dsimp only at h
            cases hvd : readValueData pvo r5 with
            | error e => rw [hvd] at h; exact absurd h (by simp)
            | ok v6 =>
              obtain ⟨pvals, r6, vdb⟩ := v6
              rw [hvd] at h
              dsimp only at h
              by_cases htr : PAGE_SIZE + 1 < 20 +
                  (if 0 < nk then nk * 4 else 0) + (nk + 1) * 4 +
                  kob + kdb + vob + vdb
              · rw [if_pos htr] at h; exact absurd h (by simp)
              · rw [if_neg htr] at h
                cases hbk : buildIndexKeys pvals segs with
                | error e => rw [hbk] at h; exact absurd h (by simp)
                | ok keys =>
                  rw [hbk] at h
                  simp only [Except.ok.injEq] at h
                  subst h
                  refine ⟨readSubPagesArray_ok _ _ _ _ hs, rfl, ?_, ?_,
                    readValueOffsets_ok _ _ _ _ hvo,
                    readValueData_ok _ _ _ _ _ hvd⟩
                  · rcases readKeyData_ok _ _ _ _ _ hkd with
                      ⟨hsegs, hkdb⟩ | ⟨offs, hoffs, hlen⟩
                    · right
                      refine ⟨?_, hkdb⟩
                      have hkl := buildIndexKeys_ok _ _ _ hbk
                      rw [hsegs] at hkl
                      exact List.length_eq_zero.mp hkl
                    · by_cases hnk : nk = 0
                      · subst hnk
                        obtain ⟨ho, _, _⟩ := readKeyOffsets_zero _ _ _ _ hko
                        rw [ho] at hoffs
                        exact absurd hoffs (by simp)
                      · left
                        obtain ⟨offs2, ho2, hlen2, _⟩ :=
                          readKeyOffsets_pos nk hnk _ _ _ _ hko
                        rw [ho2] at hoffs
                        have : offs2 = offs := by
                          injection hoffs with hinj
                        subst this
                        rw [buildIndexKeys_ok _ _ _ hbk, hlen, hlen2]
                  · intro h0
                    subst h0
                    obtain ⟨ho, hr, hkob⟩ := readKeyOffsets_zero _ _ _ _ hko
                    subst ho
                    obtain ⟨hsegs, hkdb⟩ := readKeyData_none _ _ _ _ hkd
                    have hkl := buildIndexKeys_ok _ _ _ hbk
                    rw [hsegs] at hkl
                    exact ⟨List.length_eq_zero.mp hkl, hkob, hkdb⟩

/-! ## Concrete index pages and claims C3 / C8 -/

/-- An index page with `number_of_keys = 1`, one key `"\A"`, and both raw
sub-page entries equal to the sentinel `0` (no children). -/
def indexPageOneKeyNoChildren : List Nat :=
  encU32 0xaccc ++ encU32 0 ++ encU32 0 ++ encU32 0 ++ encU32 1 ++
  encU32 0 ++
  encU32 0 ++ encU32 0 ++
  encU16 0 ++
  encU16 2 ++ encU16 1 ++ encU16 0 ++
  encU16 1 ++ encU16 0 ++
  encU16 2 ++ [65, 0]

/-- The decoded form of `indexPageOneKeyNoChildren`. -/
def indexPageOneKeyNoChildrenDecoded : DecodedIndexPage :=
  ⟨44236, 0, 0, 0, 1, [0, 0], [], ["\\A"], 2, 6, 4, 4⟩

/-- An index page with `number_of_keys = 0`: one raw sub-page entry, a
zero key-data size prefix, a zero value-offset count and a zero value-data
size. -/
def indexPageZeroKeys : List Nat :=
  encU32 0xaccc ++ encU32 0 ++ encU32 0 ++ encU32 0 ++ encU32 0 ++
  encU32 0 ++
  encU16 0 ++
  encU16 0 ++
  encU16 0

/-- The decoded form of `indexPageZeroKeys`. -/
def indexPageZeroKeysDecoded : DecodedIndexPage :=
  ⟨44236, 0, 0, 0, 0, [0], [], [], 0, 2, 2, 2⟩

/-- Claim C3, counterexample: the claim `len(keys) + 1 == len(sub_pages)`
for every decoded page with `key_count > 0` is false on the code.  The page
`indexPageOneKeyNoChildren` decodes with `number_of_keys = 1`,
`keys = ["\A"]`, yet `sub_pages = []`, because `_ReadSubPages` retains only
entries that are neither `0` nor `0xFFFFFFFF`: `1 + 1 ≠ 0`. -/
theorem C3_counterexample :
    (ReadIndexPage indexPageOneKeyNoChildren).toOption.map
        (fun p => (p.number_of_keys, p.keys.length + 1, p.sub_pages.length)) =
      some (1, 2, 0) ∧ (2 : Nat) ≠ 0 :=
  ⟨rfl, by decide⟩

/-- Claim C3 (amended): for every successfully decoded index binary-tree
page, the raw sub-pages array read from the page has `number_of_keys + 1`
entries (exactly one when `number_of_keys = 0`), and the page's retained
`sub_pages` list consists of exactly the raw entries that are neither `0`
nor `0xFFFFFFFF`, in order; moreover `keys` has `number_of_keys` entries
unless the key-data section was empty, in which case `keys` is empty.
`len(keys) + 1 = len(sub_pages)` therefore holds exactly when every raw
entry is a real child. -/
theorem C3_sub_pages_invariant (data : List Nat) (p : DecodedIndexPage)
    (h : ReadIndexPage data = .ok p) :
    p.subPagesRaw.length = p.number_of_keys + 1 ∧
    p.sub_pages = p.subPagesRaw.filter (fun q => q != 0 && q != 4294967295) ∧
    (p.keys.length = p.number_of_keys ∨
      (p.keys = [] ∧ p.keyDataBytesRead = 2)) := by
  obtain ⟨h1, h2, h3, _, _, _⟩ := ReadIndexPage_ok_facts data p h
  exact ⟨h1, h2, h3⟩

/-- Concrete instantiation of `C3_sub_pages_invariant` on
`indexPageOneKeyNoChildren`. -/
theorem C3_sub_pages_invariant_witness :
    indexPageOneKeyNoChildrenDecoded.subPagesRaw.length =
      indexPageOneKeyNoChildrenDecoded.number_of_keys + 1 ∧
    indexPageOneKeyNoChildrenDecoded.sub_pages =
      indexPageOneKeyNoChildrenDecoded.subPagesRaw.filter
        (fun q => q != 0 && q != 4294967295) ∧
    (indexPageOneKeyNoChildrenDecoded.keys.length =
        indexPageOneKeyNoChildrenDecoded.number_of_keys ∨
      (indexPageOneKeyNoChildrenDecoded.keys = [] ∧
        indexPageOneKeyNoChildrenDecoded.keyDataBytesRead = 2)) :=
  C3_sub_pages_invariant indexPageOneKeyNoChildren
    indexPageOneKeyNoChildrenDecoded rfl

/-- Claim C8, counterexample: a page with `number_of_keys = 0` does yield
zero keys and one raw sub-page entry, but the claim that "no key-offset,
key-data, or value sections are read" is false: `ReadPage` unconditionally
calls `_ReadKeyData`, `_ReadValueOffsets` and `_ReadValueData`, which each
consume their 2-byte size prefix (`2 ≠ 0`). -/
theorem C8_counterexample :
    (ReadIndexPage indexPageZeroKeys).toOption.map
        (fun p => (p.number_of_keys, p.keys.length, p.subPagesRaw.length,
          p.keyOffsetsBytesRead, p.keyDataBytesRead,
          p.valueOffsetsBytesRead, p.valueDataBytesRead)) =
      some (0, 0, 1, 0, 2, 2, 2) ∧ (2 : Nat) ≠ 0 :=
  ⟨rfl, by decide⟩

/-- Claim C8 (amended): for every successfully decoded index binary-tree
page whose header declares `number_of_keys = 0`, decoding yields zero keys
and a raw sub-pages array with exactly one entry, and the key-offset
section is not read; however the key-data size prefix (2 bytes, which must
be zero for decoding to succeed), the value-offset table and the value-data
section are still read (at least their 2-byte prefixes each). -/
theorem C8_zero_keys (data : List Nat) (p : DecodedIndexPage)
    (h : ReadIndexPage data = .ok p) (h0 : p.number_of_keys = 0) :
    p.keys = [] ∧ p.subPagesRaw.length = 1 ∧
    p.keyOffsetsBytesRead = 0 ∧ p.keyDataBytesRead = 2 ∧
    2 ≤ p.valueOffsetsBytesRead ∧ 2 ≤ p.valueDataBytesRead := by
  obtain ⟨h1, _, _, h4, h5, h6⟩ := ReadIndexPage_ok_facts data p h
  obtain ⟨hk, hko, hkd⟩ := h4 h0
  rw [h0] at h1
  exact ⟨hk, h1, hko, hkd, h5, h6⟩

/-- Concrete instantiation of `C8_zero_keys` on `indexPageZeroKeys`. -/
theorem C8_zero_keys_witness :
    indexPageZeroKeysDecoded.keys = [] ∧
    indexPageZeroKeysDecoded.subPagesRaw.length = 1 ∧
    indexPageZeroKeysDecoded.keyOffsetsBytesRead = 0 ∧
    indexPageZeroKeysDecoded.keyDataBytesRead = 2 ∧
    2 ≤ indexPageZeroKeysDecoded.valueOffsetsBytesRead ∧
    2 ≤ indexPageZeroKeysDecoded.valueDataBytesRead :=
  C8_zero_keys indexPageZeroKeys indexPageZeroKeysDecoded rfl rfl

/-! ## Index binary-tree file and key traversal -/

/-- An opened `IndexBinaryTreeFile`: the index mapping table and the bytes
of `Index.btr`. -/
structure IndexBinaryTreeFile where
  mappings : List Nat
  fileBytes : List Nat

/-- `IndexBinaryTreeFile._GetPage`: returns no page when the page offset
lies at or beyond the end of the file, otherwise decodes the page at
`page_number * PAGE_SIZE`. -/
def IndexBinaryTreeFile.GetPage (f : IndexBinaryTreeFile)
    (page_number : Nat) : Except PyErr (Option DecodedIndexPage) :=
  if f.fileBytes.length ≤ page_number * PAGE_SIZE then .ok none
  else (ReadIndexPage (f.fileBytes.drop (page_number * PAGE_SIZE))).map some

/-- `IndexBinaryTreeFile.GetMappedPage`: translates the logical page number
through the mapping table (`mappings[page_number]` raises `IndexError` when
out of range) and reads the physical page; an unreadable page is logged and
reported as `none`. -/
def IndexBinaryTreeFile.GetMappedPage (f : IndexBinaryTreeFile)
    (page_number : Nat) : Except PyErr (Option DecodedIndexPage) :=
  match f.mappings[page_number]? with
  | none => .error .indexError
  | some mapped => f.GetPage mapped

/-- One step of the generator loop in `CIMRepository._GetKeysFromIndexPage`:
once an exception has escaped, nothing further is yielded; otherwise the
keys produced for the next sub-page are appended. -/
def keysFoldStep (acc r : List String × Option PyErr) :
    List String × Option PyErr :=
  match acc.2 with
  | some _ => acc
  | none => (acc.1 ++ r.1, r.2)

/-- `CIMRepository._GetKeysFromIndexPage` as a function from a decoded page
to the pair (keys yielded by the generator, exception that aborted it, if
any): yield every key of the current page, then, for each retained
`sub_pages` entry in order, recursively yield the keys of
`GetMappedPage(entry)`.  A `GetMappedPage` failure (`None`) makes the
recursive call crash with `AttributeError` (`None.keys`).  Because page
reads are pure here, evaluating the sub-pages eagerly and folding with
`keysFoldStep` yields exactly the lazy Python generator's observable
result.  `fuel` bounds the recursion depth (the Python code would not
terminate on a cyclic page graph). -/
def GetKeysFromIndexPage (f : IndexBinaryTreeFile) :
    Nat → DecodedIndexPage → List String × Option PyErr
  | 0, _ => ([], some .outOfFuel)
  | fuel + 1, page =>
      (page.sub_pages.map (fun sub_page_number =>
        match f.GetMappedPage sub_page_number with
        | .error e => ([], some e)
        | .ok none => ([], some .attributeError)
        | .ok (some sub_index_page) =>
            GetKeysFromIndexPage f fuel sub_index_page)).foldl
        keysFoldStep (page.keys, none)

/-- Visiting one sub-page during traversal: look the page up, then recurse. -/
def GetKeysFromMappedPage (f : IndexBinaryTreeFile) (fuel : Nat)
    (page_number : Nat) : List String × Option PyErr :=
  match f.GetMappedPage page_number with
  | .error e => ([], some e)
  | .ok none => ([], some .attributeError)
  | .ok (some page) => GetKeysFromIndexPage f fuel page

theorem GetKeysFromIndexPage_succ (f : IndexBinaryTreeFile) (fuel : Nat)
    (page : DecodedIndexPage) :
    GetKeysFromIndexPage f (fuel + 1) page =
      (page.sub_pages.map (GetKeysFromMappedPage f fuel)).foldl
        keysFoldStep (page.keys, none) := rfl

/-- The mathematical shape of a sub-tree of the index: the keys stored on a
page together with the sub-trees reachable through its retained sub-page
entries. -/
inductive CimIndexTree where
  | node (keys : List String) (children : List CimIndexTree)

mutual

/-- Depth-first pre-order key enumeration of a `CimIndexTree`: node keys
first, then the children's keys in order. -/
def preorderKeys : CimIndexTree → List String
  | .node ks cs => ks ++ preorderKeysList cs

/-- Pre-order key enumeration of a forest. -/
def preorderKeysList : List CimIndexTree → List String
  | [] => []
  | t :: ts => preorderKeys t ++ preorderKeysList ts

end

/-- `TreeDepthLE t fuel`: the tree has depth at most `fuel`. -/
inductive TreeDepthLE : CimIndexTree → Nat → Prop
  | node (ks : List String) (cs : List CimIndexTree) (fuel : Nat)
      (h : ∀ c ∈ cs, TreeDepthLE c fuel) :
      TreeDepthLE (.node ks cs) (fuel + 1)

/-- `ReprTree f n t`: starting from logical page number `n`, every page
lookup succeeds and the reachable pages form the tree `t` (page keys at the
node, one child per retained sub-page entry, in order). -/
inductive ReprTree (f : IndexBinaryTreeFile) : Nat → CimIndexTree → Prop
  | node (page_number : Nat) (page : DecodedIndexPage)
      (ts : List CimIndexTree)
      (hpage : f.GetMappedPage page_number = .ok (some page))
      (hlen : ts.length = page.sub_pages.length)
      (hchild : ∀ i (hi : i < page.sub_pages.length) (hj : i < ts.length),
        ReprTree f (page.sub_pages.get ⟨i, hi⟩) (ts.get ⟨i, hj⟩)) :
      ReprTree f page_number (.node page.keys ts)

theorem keysFold_ok (f : IndexBinaryTreeFile) (fuel : Nat) :
    ∀ (subs : List Nat) (ts : List CimIndexTree) (init : List String),
    ts.length = subs.length →
    (∀ i (hi : i < subs.length) (hj : i < ts.length),
      GetKeysFromMappedPage f fuel (subs.get ⟨i, hi⟩) =
        (preorderKeys (ts.get ⟨i, hj⟩), none)) →
    (subs.map (GetKeysFromMappedPage f fuel)).foldl
        keysFoldStep (init, none) =
      (init ++ preorderKeysList ts, none) := by
  intro subs
  induction subs with
  | nil =>
      intro ts init hlen hall
      have : ts = [] := by simp at hlen; exact hlen
      subst this
      simp [preorderKeysList]
  | cons s subs ih =>
      intro ts init hlen hall
      cases ts with
      | nil => simp at hlen
      | cons t ts =>
          have h0 := hall 0 (by simp) (by simp)
          simp only [List.get] at h0
          simp only [List.map_cons, List.foldl_cons, h0, keysFoldStep]
          have htail := ih ts (init ++ preorderKeys t)
            (by simp at hlen; exact hlen)
            (fun i hi hj => by
              have := hall (i + 1) (by simp; omega) (by simp; omega)
              simpa using this)
          rw [preorderKeysList]
          rw [htail, List.append_assoc]
/-- Claim C7: the key enumeration is a depth-first pre-order traversal
with node keys before children: whenever the pages reachable from logical
page `n` form the tree `t` (one child per retained sub-page entry, in
order) and the recursion depth is covered by `fuel`, the generator yields
exactly `preorderKeys t` - all keys of the page first, then, for each
sub-page entry that is neither `0` nor `0xFFFFFFFF`, in order, the keys of
the mapped sub-page the same way - and no exception escapes. -/
theorem C7_preorder_traversal (f : IndexBinaryTreeFile) :
    ∀ (fuel n : Nat) (t : CimIndexTree),
    ReprTree f n t → TreeDepthLE t fuel →
    GetKeysFromMappedPage f fuel n = (preorderKeys t, none) := by
  intro fuel
  induction fuel with
  | zero =>
      intro n t hrep hdep
      cases hrep with
      | node pn page ts hpage hlen hchild => cases hdep
  | succ fuel ih =>
      intro n t hrep hdep
      cases hrep with
      | node pn page ts hpage hlen hchild =>
          have hdepth : ∀ c ∈ ts, TreeDepthLE c fuel := by
            cases hdep with
            | node ks cs f2 h2 => exact h2
          · rw [GetKeysFromMappedPage, hpage]
            dsimp only
            rw [GetKeysFromIndexPage_succ]
            rw [keysFold_ok f fuel page.sub_pages ts page.keys hlen
              (fun i hi hj =>
                ih _ _ (hchild i hi hj) (hdepth _ (ts.get_mem i hj)))]
            rw [preorderKeys]

/-- First index page of the concrete two-page traversal example: one key
`"\A"`, raw sub-page entries `[1, 0]` (one retained child: logical page 1). -/
def c7Page0 : List Nat :=
  encU32 0xaccc ++ encU32 0 ++ encU32 0 ++ encU32 0 ++ encU32 1 ++
  encU32 0 ++
  encU32 1 ++ encU32 0 ++
  encU16 0 ++
  encU16 2 ++ encU16 1 ++ encU16 0 ++
  encU16 1 ++ encU16 0 ++
  encU16 2 ++ [65, 0]

/-- Second index page of the example: one key `"\B"`, no children. -/
def c7Page1 : List Nat :=
  encU32 0xaccc ++ encU32 0 ++ encU32 0 ++ encU32 0 ++ encU32 1 ++
  encU32 0 ++
  encU32 0 ++ encU32 0 ++
  encU16 0 ++
  encU16 2 ++ encU16 1 ++ encU16 0 ++
  encU16 1 ++ encU16 0 ++
  encU16 2 ++ [66, 0]

/-- A two-page index file: page 0 at offset 0, page 1 at offset 8192,
identity mapping for the two logical pages. -/
def c7IndexFile : IndexBinaryTreeFile :=
  ⟨[0, 1], (c7Page0 ++ List.replicate 8144 0) ++ c7Page1⟩

/-- The tree formed by the two pages. -/
def c7Tree : CimIndexTree := .node ["\\A"] [.node ["\\B"] []]

theorem c7IndexFile_length : c7IndexFile.fileBytes.length = 8240 := by
  have h0 : c7Page0.length = 48 := by decide
  have h1 : c7Page1.length = 48 := by decide
  show ((c7Page0 ++ List.replicate 8144 0) ++ c7Page1).length = 8240
  rw [List.length_append, List.length_append, List.length_replicate, h0, h1]

theorem c7IndexFile_getMappedPage_zero :
    c7IndexFile.GetMappedPage 0 =
      .ok (some ⟨44236, 0, 0, 0, 1, [1, 0], [1], ["\\A"], 2, 6, 4, 4⟩) := by
  rw [IndexBinaryTreeFile.GetMappedPage]
  have hm : c7IndexFile.mappings[0]? = some 0 := rfl
  rw [hm]
  simp only [IndexBinaryTreeFile.GetPage]
  rw [if_neg (by rw [c7IndexFile_length]; norm_num [PAGE_SIZE])]
  rw [Nat.zero_mul, List.drop_zero]
  rfl

theorem c7IndexFile_getMappedPage_one :
    c7IndexFile.GetMappedPage 1 =
      .ok (some ⟨44236, 0, 0, 0, 1, [0, 0], [], ["\\B"], 2, 6, 4, 4⟩) := by
  rw [IndexBinaryTreeFile.GetMappedPage]
  have hm : c7IndexFile.mappings[1]? = some 1 := rfl
  rw [hm]
  simp only [IndexBinaryTreeFile.GetPage]
  rw [if_neg (by rw [c7IndexFile_length]; norm_num [PAGE_SIZE])]
  have hdrop : c7IndexFile.fileBytes.drop (1 * PAGE_SIZE) = c7Page1 := by
    show ((c7Page0 ++ List.replicate 8144 0) ++ c7Page1).drop (1 * PAGE_SIZE) =
      c7Page1
    have hlen : (c7Page0 ++ List.replicate 8144 0).length = 1 * PAGE_SIZE := by
      have h0 : c7Page0.length = 48 := by decide
      rw [List.length_append, List.length_replicate, h0]
      norm_num [PAGE_SIZE]
    rw [List.drop_left' hlen]
  rw [hdrop]
  rfl

/-- Concrete instantiation of `C7_preorder_traversal` on the two-page
index file. -/
theorem C7_preorder_traversal_witness :
    GetKeysFromMappedPage c7IndexFile 2 0 = (preorderKeys c7Tree, none) :=
  C7_preorder_traversal c7IndexFile 2 0 c7Tree
    (ReprTree.node 0
      ⟨44236, 0, 0, 0, 1, [1, 0], [1], ["\\A"], 2, 6, 4, 4⟩
      [.node ["\\B"] []] c7IndexFile_getMappedPage_zero rfl
      (fun i hi hj => by
        have h0 : i = 0 := by
          simp only [List.length_cons, List.length_nil] at hi
          omega
        subst h0
        exact ReprTree.node 1
          ⟨44236, 0, 0, 0, 1, [0, 0], [], ["\\B"], 2, 6, 4, 4⟩
          [] c7IndexFile_getMappedPage_one rfl
          (fun j hj2 _ => by
            simp only [List.length_nil] at hj2
            omega)))
    (TreeDepthLE.node ["\\A"] [.node ["\\B"] []] 1
      (fun c hc => by
        rw [List.mem_singleton] at hc
        subst hc
        exact TreeDepthLE.node ["\\B"] [] 0
          (fun c hc => absurd hc (List.not_mem_nil c))))

/-! ## Objects data (`Objects.data`) file -/

/-- `cim_object_descriptor`: identifier, page-relative data offset, data
size, (unverified) checksum. -/
structure ObjectDescriptor where
  identifier : Nat
  data_offset : Nat
  data_size : Nat
  data_checksum : Nat
deriving DecidableEq, Repr

/-- `ObjectsDataPage._ReadObjectDescriptors`: 16-byte descriptors are read
until the all-zero terminator descriptor.  A short read at end of file is
not the terminator, so the dtfabric mapping raises `ParseError`. -/
def readObjectDescriptors : List Nat → Except PyErr (List ObjectDescriptor)
  | b0 :: b1 :: b2 :: b3 :: b4 :: b5 :: b6 :: b7 ::
    b8 :: b9 :: b10 :: b11 :: b12 :: b13 :: b14 :: b15 :: rest =>
      if b0 = 0 ∧ b1 = 0 ∧ b2 = 0 ∧ b3 = 0 ∧ b4 = 0 ∧ b5 = 0 ∧ b6 = 0 ∧
          b7 = 0 ∧ b8 = 0 ∧ b9 = 0 ∧ b10 = 0 ∧ b11 = 0 ∧ b12 = 0 ∧
          b13 = 0 ∧ b14 = 0 ∧ b15 = 0 then
        .ok []
      else
        match readObjectDescriptors rest with
        | .error e => .error e
        | .ok ds =>
            .ok (⟨b0 + 256 * b1 + 65536 * b2 + 16777216 * b3,
              b4 + 256 * b5 + 65536 * b6 + 16777216 * b7,
              b8 + 256 * b9 + 65536 * b10 + 16777216 * b11,
              b12 + 256 * b13 + 65536 * b14 + 16777216 * b15⟩ :: ds)
  | _ => .error .parseError

/-- The decoded state of an `ObjectsDataPage` after `ReadPage`: the page
offset, and the object descriptor table (empty for a data/continuation
page, whose descriptors are never read). -/
structure ObjectsDataPage where
  page_offset : Nat
  object_descriptors : List ObjectDescriptor
deriving DecidableEq, Repr

/-- `ObjectsDataPage.GetObjectDescriptor`: the first descriptor whose
identifier matches; `None` (logged) when there is no match or when the
matching descriptor's `data_size` differs from the caller's. -/
def GetObjectDescriptor (descriptors : List ObjectDescriptor)
    (record_identifier data_size : Nat) : Option ObjectDescriptor :=
  match descriptors.find? (fun d => d.identifier == record_identifier) with
  | none => none
  | some descriptor =>
      if descriptor.data_size ≠ data_size then none else some descriptor

/-- `ObjectsDataPage.ReadObjectRecordData`: reads
`min(data_size, PAGE_SIZE - data_offset)` bytes at
`page_offset + data_offset`.  When `data_offset` exceeds `PAGE_SIZE` the
Python `PAGE_SIZE - data_offset` is negative and is passed to
`file_object.read`: `read(-1)` (at `data_offset = PAGE_SIZE + 1`) reads to
the end of the file, and a size below `-1` raises `ValueError` under
Python 3 io semantics (Python 2's `file.read` reads to the end of the file
for any negative size). -/
def ReadObjectRecordData (file : List Nat)
    (page_offset data_offset data_size : Nat) : Except PyErr (List Nat) :=
  if data_offset ≤ PAGE_SIZE then
    .ok ((file.drop (page_offset + data_offset)).take
      (if PAGE_SIZE - data_offset < data_size then PAGE_SIZE - data_offset
       else data_size))
  else if data_offset = PAGE_SIZE + 1 then
    .ok (file.drop (page_offset + data_offset))
  else .error .valueError

/-- An opened `ObjectsDataFile`: the objects mapping table and the bytes
of `Objects.data`. -/
structure ObjectsDataFile where
  mappings : List Nat
  fileBytes : List Nat

/-- `ObjectsDataFile._GetPage` / `_ReadPage` / `ObjectsDataPage.ReadPage`:
no page when the page offset lies at or beyond the end of the file; a data
(continuation) page reads no descriptors. -/
def ObjectsDataFile.GetPage (f : ObjectsDataFile) (page_number : Nat)
    (data_page : Bool) : Except PyErr (Option ObjectsDataPage) :=
  if f.fileBytes.length ≤ page_number * PAGE_SIZE then .ok none
  else if data_page then .ok (some ⟨page_number * PAGE_SIZE, []⟩)
  else
    match readObjectDescriptors
        (f.fileBytes.drop (page_number * PAGE_SIZE)) with
    | .error e => .error e
    | .ok descriptors => .ok (some ⟨page_number * PAGE_SIZE, descriptors⟩)

/-- `ObjectsDataFile.GetMappedPage`: translate the logical page number
through the objects mapping table (`IndexError` when out of range), then
read the physical page; an unreadable page is logged and reported as
`none`. -/
def ObjectsDataFile.GetMappedPage (f : ObjectsDataFile) (page_number : Nat)
    (data_page : Bool) : Except PyErr (Option ObjectsDataPage) :=
  match f.mappings[page_number]? with
  | none => .error .indexError
  | some mapped => f.GetPage mapped data_page

/-- Split a character list on a separator character, Python
`str.split(sep)` style: splitting the empty string gives one empty group. -/
def splitOnChar (c : Char) : List Char → List (List Char)
  | [] => [[]]
  | x :: xs =>
      match splitOnChar c xs with
      | [] => [[]]
      | g :: gs => if x = c then [] :: g :: gs else (x :: g) :: gs

/-- Decimal digit accumulation for `int(s, 10)`. -/
def digitsVal : List Char → Nat → Option Nat
  | [], acc => some acc
  | c :: cs, acc =>
      if 48 ≤ c.toNat ∧ c.toNat ≤ 57 then
        digitsVal cs (acc * 10 + (c.toNat - 48))
      else none

/-- `int(s, 10)`, modelled for all-digit strings: fails on an empty string
or any non-digit character. -/
def parseDecimal (s : List Char) : Option Nat :=
  if s = [] then none else digitsVal s 0

/-- `ObjectsDataFile._GetKeyValues`: take the part of the key after the
last `\` (`str.rpartition`); return nothing when it contains no `.`; split
on `.` and require exactly four components; decode components 1..3 as
decimal integers (modelled as all-digit strings; the name component is
returned as-is). -/
def GetKeyValues (key : String) : Option (String × Nat × Nat × Nat) :=
  let k := (splitOnChar '\\' key.data).getLastD []
  if ¬ (k.contains '.') then none
  else
    let key_values := splitOnChar '.' k
    if key_values.length ≠ 4 then none
    else
      match key_values[1]?.bind parseDecimal,
          key_values[2]?.bind parseDecimal,
          key_values[3]?.bind parseDecimal with
      | some page_number, some record_identifier, some data_size =>
          some (String.mk (key_values.headD []), page_number,
            record_identifier, data_size)
      | _, _, _ => none

/-- An object record: its data type (from the key) and its reassembled
data bytes. -/
structure ObjectRecord where
  data_type : String
  data : List Nat
deriving DecidableEq, Repr

/-- `key.partition('_')[0]`: the part of the key name before the first
`_`, or the whole name when there is none. -/
def dataTypeFromKeyName (name : String) : String :=
  String.mk ((splitOnChar '_' name.data).headD [])

/-- The `while data_size > 0` loop of `ObjectsDataFile.GetObjectRecordByKey`:
returns the collected data segments together with the reads performed, one
`(page_number, data_offset)` pair per loop iteration, or `none` when the
source logs a warning and returns no record.  On the first iteration the
page is read as a descriptor page and the data offset comes from the
matching object descriptor - when `GetObjectDescriptor` returns `None` the
source dereferences `None.data_offset` and crashes with `AttributeError`;
on later iterations the page is a data page and the offset is `0`.  `fuel`
makes the recursion total; every successful iteration consumes at least
one byte of `data_size`, so `data_size + 1` fuel never runs out. -/
def GetObjectRecordLoop (f : ObjectsDataFile) (record_identifier : Nat) :
    Nat → Nat → Nat → Bool →
    Except PyErr (Option (List (List Nat) × List (Nat × Nat)))
  | 0, _, _, _ => .error .outOfFuel
  | fuel + 1, data_size, page_number, data_page =>
      if data_size = 0 then .ok (some ([], []))
      else
        match f.GetMappedPage page_number data_page with
        | .error e => .error e
        | .ok none => .ok none
        | .ok (some object_page) =>
            match (if data_page then .ok 0 else
              match GetObjectDescriptor object_page.object_descriptors
                  record_identifier data_size with
              | none => .error .attributeError
              | some descriptor => .ok descriptor.data_offset :
                Except PyErr Nat) with
            | .error e => .error e
            | .ok data_offset =>
                match ReadObjectRecordData f.fileBytes
                    object_page.page_offset data_offset data_size with
                | .error e => .error e
                | .ok data_segment =>
                    if data_segment = [] then .ok none
                    else
                      match GetObjectRecordLoop f record_identifier fuel
                          (data_size - data_segment.length)
                          (page_number + 1) true with
                      | .error e => .error e
                      | .ok none => .ok none
                      | .ok (some (segments, reads)) =>
                          .ok (some (data_segment :: segments,
                            (page_number, data_offset) :: reads))

/-- `ObjectsDataFile.GetObjectRecordByKey`, additionally exposing the
trace of page reads: decompose the key (`None` from `_GetKeyValues` cannot
be unpacked into four names, so the source raises `TypeError`), run the
segment loop, then join the segments into the record data. -/
def ObjectsDataFile.GetObjectRecordByKeyWithReads (f : ObjectsDataFile)
    (key : String) :
    Except PyErr (Option (ObjectRecord × List (Nat × Nat))) :=
  match GetKeyValues key with
  | none => .error .typeError
  | some (key_name, page_number, record_identifier, data_size) =>
      match GetObjectRecordLoop f record_identifier (data_size + 1)
          data_size page_number false with
      | .error e => .error e
      | .ok none => .ok none
      | .ok (some (segments, reads)) =>
          .ok (some (⟨dataTypeFromKeyName key_name, segments.flatten⟩, reads))

/-- `ObjectsDataFile.GetObjectRecordByKey`. -/
def ObjectsDataFile.GetObjectRecordByKey (f : ObjectsDataFile)
    (key : String) : Except PyErr (Option ObjectRecord) :=
  (f.GetObjectRecordByKeyWithReads key).map (Option.map Prod.fst)

theorem ReadObjectRecordData_length_le (file : List Nat)
    (page_offset data_offset data_size : Nat) (seg : List Nat)
    (hoff : data_offset ≤ PAGE_SIZE)
    (h : ReadObjectRecordData file page_offset data_offset data_size =
      .ok seg) : seg.length ≤ data_size := by
  simp only [ReadObjectRecordData] at h
  rw [if_pos hoff] at h
  simp only [Except.ok.injEq] at h
  subst h
  rw [List.length_take]
  by_cases hr : PAGE_SIZE - data_offset < data_size
  · rw [if_pos hr]; omega
  · rw [if_neg hr]; omega

theorem GetObjectRecordLoop_length_ge (f : ObjectsDataFile) (rid : Nat) :
    ∀ (fuel data_size page_number : Nat) (data_page : Bool)
      (segments : List (List Nat)) (reads : List (Nat × Nat)),
    GetObjectRecordLoop f rid fuel data_size page_number data_page =
      .ok (some (segments, reads)) →
    data_size ≤ segments.flatten.length := by
  intro fuel
  induction fuel with
  | zero =>
      intro ds pn dp segments reads h
      rw [GetObjectRecordLoop] at h
      exact absurd h (by simp)
  | succ fuel ih =>
      intro ds pn dp segments reads h
      rw [GetObjectRecordLoop] at h
      by_cases hz : ds = 0
      · rw [if_pos hz] at h
        simp only [Except.ok.injEq, Option.some.injEq, Prod.mk.injEq] at h
        rw [← h.1]
        simp [hz]
      · rw [if_neg hz] at h
        cases hm : f.GetMappedPage pn dp with
        | error e => rw [hm] at h; exact absurd h (by simp)
        | ok o =>
            rw [hm] at h
            cases o with
            | none => exact absurd h (by simp)
            | some object_page =>
                dsimp only at h
                cases hoff : (if dp then .ok 0 else
                    match GetObjectDescriptor object_page.object_descriptors
                        rid ds with
                    | none => .error .attributeError
                    | some descriptor => .ok descriptor.data_offset :
                      Except PyErr Nat) with
                | error e => rw [hoff] at h; exact absurd h (by simp)
                | ok data_offset =>
                    rw [hoff] at h
                    dsimp only at h
                    cases hrd : ReadObjectRecordData f.fileBytes
                        object_page.page_offset data_offset ds with
                    | error e => rw [hrd] at h; exact absurd h (by simp)
                    | ok data_segment =>
                        rw [hrd] at h
                        dsimp only at h
                        by_cases hseg : data_segment = []
                        · rw [if_pos hseg] at h; exact absurd h (by simp)
                        · rw [if_neg hseg] at h
                          cases hrec : GetObjectRecordLoop f rid fuel
                              (ds - data_segment.length) (pn + 1) true with
                          | error e => rw [hrec] at h; exact absurd h (by simp)
                          | ok o2 =>
                              rw [hrec] at h
                              cases o2 with
                              | none => exact absurd h (by simp)
                              | some sr =>
                                  obtain ⟨segments2, reads2⟩ := sr
                                  simp only [Except.ok.injEq,
                                    Option.some.injEq, Prod.mk.injEq] at h
                                  rw [← h.1]
                                  have hrest := ih _ _ _ _ _ hrec
                                  simp only [List.flatten_cons,
                                    List.length_append]
                                  omega

theorem GetObjectRecordLoop_length_eq (f : ObjectsDataFile) (rid : Nat) :
    ∀ (fuel data_size page_number : Nat) (data_page : Bool)
      (segments : List (List Nat)) (reads : List (Nat × Nat)),
    GetObjectRecordLoop f rid fuel data_size page_number data_page =
      .ok (some (segments, reads)) →
    (∀ pr ∈ reads, pr.2 ≤ PAGE_SIZE) →
    segments.flatten.length = data_size := by
  intro fuel
  induction fuel with
  | zero =>
      intro ds pn dp segments reads h hb
      rw [GetObjectRecordLoop] at h
      exact absurd h (by simp)
  | succ fuel ih =>
      intro ds pn dp segments reads h hb
      rw [GetObjectRecordLoop] at h
      by_cases hz : ds = 0
      · rw [if_pos hz] at h
        simp only [Except.ok.injEq, Option.some.injEq, Prod.mk.injEq] at h
        rw [← h.1]
        simp [hz]
      · rw [if_neg hz] at h
        cases hm : f.GetMappedPage pn dp with
        | error e => rw [hm] at h; exact absurd h (by simp)
        | ok o =>
            rw [hm] at h
            cases o with
            | none => exact absurd h (by simp)
            | some object_page =>
                dsimp only at h
                cases hoff : (if dp then .ok 0 else
                    match GetObjectDescriptor object_page.object_descriptors
                        rid ds with
                    | none => .error .attributeError
                    | some descriptor => .ok descriptor.data_offset :
                      Except PyErr Nat) with
                | error e => rw [hoff] at h; exact absurd h (by simp)
                | ok data_offset =>
                    rw [hoff] at h
                    dsimp only at h
                    cases hrd : ReadObjectRecordData f.fileBytes
                        object_page.page_offset data_offset ds with
                    | error e => rw [hrd] at h; exact absurd h (by simp)
                    | ok data_segment =>
                        rw [hrd] at h
                        dsimp only at h
                        by_cases hseg : data_segment = []
                        · rw [if_pos hseg] at h; exact absurd h (by simp)
                        · rw [if_neg hseg] at h
                          cases hrec : GetObjectRecordLoop f rid fuel
                              (ds - data_segment.length) (pn + 1) true with
                          | error e => rw [hrec] at h; exact absurd h (by simp)
                          | ok o2 =>
                              rw [hrec] at h
                              cases o2 with
                              | none => exact absurd h (by simp)
                              | some sr =>
                                  obtain ⟨segments2, reads2⟩ := sr
                                  simp only [Except.ok.injEq,
                                    Option.some.injEq, Prod.mk.injEq] at h
                                  obtain ⟨h1, h2⟩ := h
                                  rw [← h2] at hb
                                  have hoffle : data_offset ≤ PAGE_SIZE :=
                                    hb (pn, data_offset)
                                      (List.mem_cons_self _ _)
                                  have hb2 : ∀ pr ∈ reads2,
                                      pr.2 ≤ PAGE_SIZE :=
                                    fun pr hpr =>
                                      hb pr (List.mem_cons_of_mem _ hpr)
                                  have hrest := ih _ _ _ _ _ hrec hb2
                                  have hle := ReadObjectRecordData_length_le
                                    _ _ _ _ _ hoffle hrd
                                  rw [← h1]
                                  simp only [List.flatten_cons,
                                    List.length_append, hrest]
                                  omega

/-- Claim C6 (amended): whenever `GetObjectRecordByKey` returns an object
record, the length of the record's reassembled data is at least the
`data_size` encoded in the fourth dot-separated component of the CIM key's
trailing segment, and it equals that `data_size` whenever every read the
loop performed used a data offset of at most `PAGE_SIZE` (in particular
whenever the record's descriptor declares `data_offset ≤ PAGE_SIZE`;
continuation reads always use offset `0`).  Equality does not hold in
general: a descriptor with `data_offset = PAGE_SIZE + 1` makes the source
call `file_object.read(-1)`, which reads to the end of the file, so the
returned record can be longer than the key declares. -/
theorem C6_record_data_length :
    (∀ (f : ObjectsDataFile) (key key_name : String)
      (page_number record_identifier data_size : Nat) (rec : ObjectRecord),
      GetKeyValues key =
        some (key_name, page_number, record_identifier, data_size) →
      f.GetObjectRecordByKey key = .ok (some rec) →
      data_size ≤ rec.data.length) ∧
    (∀ (f : ObjectsDataFile) (key key_name : String)
      (page_number record_identifier data_size : Nat) (rec : ObjectRecord)
      (reads : List (Nat × Nat)),
      GetKeyValues key =
        some (key_name, page_number, record_identifier, data_size) →
      f.GetObjectRecordByKeyWithReads key = .ok (some (rec, reads)) →
      (∀ pr ∈ reads, pr.2 ≤ PAGE_SIZE) →
      rec.data.length = data_size) := by
  constructor
  · intro f key key_name pn rid ds rec hk h
    rw [ObjectsDataFile.GetObjectRecordByKey,
      ObjectsDataFile.GetObjectRecordByKeyWithReads, hk] at h
    dsimp only at h
    cases hloop : GetObjectRecordLoop f rid (ds + 1) ds pn false with
    | error e => rw [hloop] at h; exact absurd h (by simp [Except.map])
    | ok o =>
        rw [hloop] at h
        cases o with
        | none => exact absurd h (by simp [Except.map])
        | some sr =>
            obtain ⟨segments, reads⟩ := sr
            simp only [Except.map, Option.map, Except.ok.injEq,
              Option.some.injEq] at h
            rw [← h]
            exact GetObjectRecordLoop_length_ge f rid _ _ _ _ _ _ hloop
  · intro f key key_name pn rid ds rec reads hk h hb
    rw [ObjectsDataFile.GetObjectRecordByKeyWithReads, hk] at h
    dsimp only at h
    cases hloop : GetObjectRecordLoop f rid (ds + 1) ds pn false with
    | error e => rw [hloop] at h; exact absurd h (by simp)
    | ok o =>
        rw [hloop] at h
        cases o with
        | none => exact absurd h (by simp)
        | some sr =>
            obtain ⟨segments, reads2⟩ := sr
            simp only [Except.ok.injEq, Option.some.injEq,
              Prod.mk.injEq] at h
            obtain ⟨h1, h2⟩ := h
            rw [← h2] at hb
            rw [← h1]
            exact GetObjectRecordLoop_length_eq f rid _ _ _ _ _ _ hloop hb

/-- A one-page objects file: a single descriptor
`(identifier 7, data_offset 36, data_size 2)`, the all-zero terminator,
four padding bytes, and the two record data bytes at offset 36. -/
def recordObjectsFile : ObjectsDataFile :=
  ⟨[0], encU32 7 ++ encU32 36 ++ encU32 2 ++ encU32 0 ++
    List.replicate 16 0 ++ [0, 0, 0, 0] ++ [9, 8]⟩

/-- Concrete instantiation of `C6_record_data_length`: the record for key
`"NS_x.0.7.2"` has exactly the 2 data bytes the key declares (its single
read used data offset 36). -/
theorem C6_record_data_length_witness :
    (2 : Nat) ≤ (⟨"NS", [9, 8]⟩ : ObjectRecord).data.length ∧
    (⟨"NS", [9, 8]⟩ : ObjectRecord).data.length = 2 :=
  ⟨C6_record_data_length.1 recordObjectsFile "NS_x.0.7.2" "NS_x" 0 7 2
      ⟨"NS", [9, 8]⟩ rfl rfl,
    C6_record_data_length.2 recordObjectsFile "NS_x.0.7.2" "NS_x" 0 7 2
      ⟨"NS", [9, 8]⟩ [(0, 36)] rfl rfl (by decide)⟩

def c6OverflowChunk : List Nat :=
  encU32 7 ++ encU32 8193 ++ encU32 2 ++ encU32 0 ++ List.replicate 16 0

def c6OverflowFile : ObjectsDataFile :=
  ⟨[0], (c6OverflowChunk ++ List.replicate 8161 0) ++ [1, 2, 3, 4, 5, 6, 7]⟩

theorem c6OverflowFile_pre_length :
    (c6OverflowChunk ++ List.replicate 8161 0).length = 8193 := by
  rw [List.length_append, List.length_replicate,
    show c6OverflowChunk.length = 32 from by decide]

theorem c6OverflowFile_length : c6OverflowFile.fileBytes.length = 8200 := by
  show ((c6OverflowChunk ++ List.replicate 8161 0) ++
    [1, 2, 3, 4, 5, 6, 7]).length = 8200
  rw [List.length_append, c6OverflowFile_pre_length]
  rfl

theorem c6OverflowFile_getMappedPage :
    c6OverflowFile.GetMappedPage 0 false =
      .ok (some ⟨0, [⟨7, 8193, 2, 0⟩]⟩) := by
  rw [ObjectsDataFile.GetMappedPage]
  have hm : c6OverflowFile.mappings[0]? = some 0 := rfl
  rw [hm]
  simp only [ObjectsDataFile.GetPage]
  rw [if_neg (by rw [c6OverflowFile_length]; norm_num [PAGE_SIZE])]
  rw [if_neg Bool.false_ne_true]
  rw [Nat.zero_mul, List.drop_zero]
  rfl

theorem c6OverflowFile_drop :
    c6OverflowFile.fileBytes.drop (0 + 8193) = [1, 2, 3, 4, 5, 6, 7] := by
  show ((c6OverflowChunk ++ List.replicate 8161 0) ++
    [1, 2, 3, 4, 5, 6, 7]).drop (0 + 8193) = _
  rw [Nat.zero_add, List.drop_left' c6OverflowFile_pre_length]

/-- Claim C6, counterexample: the claim is false on the code.  A page-0
descriptor `(identifier 7, data_offset 8193, data_size 2)` in an 8200-byte
objects file matches the key `"N.0.7.2"` exactly, but the Python
`read(PAGE_SIZE - 8193)` is `read(-1)` and returns everything to the end
of the file: the record comes back with the 7 bytes stored at offsets
8193..8199, not the 2 bytes the key declares. -/
theorem C6_counterexample :
    GetKeyValues "N.0.7.2" = some ("N", 0, 7, 2) ∧
    c6OverflowFile.GetObjectRecordByKey "N.0.7.2" =
      .ok (some ⟨"N", [1, 2, 3, 4, 5, 6, 7]⟩) ∧
    (⟨"N", [1, 2, 3, 4, 5, 6, 7]⟩ : ObjectRecord).data.length = 7 ∧
    (7 : Nat) ≠ 2 := by
  have hloop : GetObjectRecordLoop c6OverflowFile 7 (2 + 1) 2 0 false =
      .ok (some ([[1, 2, 3, 4, 5, 6, 7]], [(0, 8193)])) := by
    rw [GetObjectRecordLoop]
    rw [if_neg (by omega : ¬ (2 : Nat) = 0)]
    rw [c6OverflowFile_getMappedPage]
    dsimp only
    rw [if_neg Bool.false_ne_true]
    rw [show GetObjectDescriptor [⟨7, 8193, 2, 0⟩] 7 2 =
      some ⟨7, 8193, 2, 0⟩ from rfl]
    dsimp only
    simp only [ReadObjectRecordData]
    rw [if_neg (by norm_num [PAGE_SIZE] : ¬ (8193 : Nat) ≤ PAGE_SIZE)]
    rw [if_pos (by norm_num [PAGE_SIZE] : (8193 : Nat) = PAGE_SIZE + 1)]
    rw [c6OverflowFile_drop]
    dsimp only
    rw [if_neg (by decide : ¬ ([1, 2, 3, 4, 5, 6, 7] : List Nat) = [])]
    rw [show (2 - ([1, 2, 3, 4, 5, 6, 7] : List Nat).length) = 0 from
      by decide]
    rfl
  refine ⟨rfl, ?_, rfl, by decide⟩
  rw [ObjectsDataFile.GetObjectRecordByKey,
    ObjectsDataFile.GetObjectRecordByKeyWithReads,
    show GetKeyValues "N.0.7.2" = some ("N", 0, 7, 2) from rfl]
  dsimp only
  rw [hloop]
  rfl

/-- Claim C9: `GetObjectRecordByKey` is deterministic over an immutable
repository: two calls with the same key on the same unchanged objects data
file that both return a record return byte-identical record data (the
reader performs no writes and keeps no cache; every call re-reads the same
immutable bytes). -/
theorem C9_get_record_idempotent (f : ObjectsDataFile) (key : String)
    (r1 r2 : ObjectRecord)
    (h1 : f.GetObjectRecordByKey key = .ok (some r1))
    (h2 : f.GetObjectRecordByKey key = .ok (some r2)) :
    r1.data = r2.data := by
  rw [h1] at h2
  simp only [Except.ok.injEq, Option.some.injEq] at h2
  rw [h2]

/-- Concrete instantiation of `C9_get_record_idempotent` on
`recordObjectsFile`. -/
theorem C9_get_record_idempotent_witness :
    (⟨"NS", [9, 8]⟩ : ObjectRecord).data =
      (⟨"NS", [9, 8]⟩ : ObjectRecord).data :=
  C9_get_record_idempotent recordObjectsFile "NS_x.0.7.2"
    ⟨"NS", [9, 8]⟩ ⟨"NS", [9, 8]⟩ rfl rfl

/-- Claim C10, counterexample: the claim says the not-found return path
(no record, no exception) is taken for keys whose trailing segment
contains `.` but does not decompose into four valid components.  In the
code every `None` from `_GetKeyValues` - including this case - fails the
4-tuple unpacking in `GetObjectRecordByKey` and raises `TypeError`: for
the key `"x.1.2"` (three components) the result is an exception, not the
no-record return. -/
theorem C10_counterexample :
    GetKeyValues "x.1.2" = none ∧
    (⟨[], []⟩ : ObjectsDataFile).GetObjectRecordByKey "x.1.2" =
      .error .typeError ∧
    (⟨[], []⟩ : ObjectsDataFile).GetObjectRecordByKey "x.1.2" ≠
      .ok none := by
  have h2 : (⟨[], []⟩ : ObjectsDataFile).GetObjectRecordByKey "x.1.2" =
      .error .typeError := rfl
  refine ⟨rfl, h2, fun hcon => ?_⟩
  rw [h2] at hcon
  exact Except.noConfusion hcon

/-- Claim C10 (amended): a CIM key whose trailing path segment contains no
`.` separator yields no key-value decomposition, and every key without a
valid decomposition - no separator, a component count other than four, or
a non-numeric numeric component - makes `GetObjectRecordByKey` raise
`TypeError` when unpacking the absent tuple; the no-record (`None`) return
path is never taken for malformed keys, only for page or segment read
failures after a successful decomposition. -/
theorem C10_malformed_key_raises (f : ObjectsDataFile) (key : String) :
    (¬ ((splitOnChar '\\' key.data).getLastD []).contains '.' →
      GetKeyValues key = none) ∧
    (GetKeyValues key = none →
      f.GetObjectRecordByKey key = .error .typeError) := by
  constructor
  · intro h
    rw [GetKeyValues]
    simp only [if_pos h]
  · intro h
    rw [ObjectsDataFile.GetObjectRecordByKey,
      ObjectsDataFile.GetObjectRecordByKeyWithReads, h]
    rfl

/-- Concrete instantiation of `C10_malformed_key_raises` on the key
`"ns\\plainname"` (a pure namespace/class node). -/
theorem C10_malformed_key_raises_witness :
    GetKeyValues "ns\\plainname" = none ∧
    (⟨[], []⟩ : ObjectsDataFile).GetObjectRecordByKey "ns\\plainname" =
      .error .typeError :=
  ⟨(C10_malformed_key_raises ⟨[], []⟩ "ns\\plainname").1 (by decide),
    (C10_malformed_key_raises ⟨[], []⟩ "ns\\plainname").2
      ((C10_malformed_key_raises ⟨[], []⟩ "ns\\plainname").1 (by decide))⟩

/-- The objects file used to show the descriptor-failure crash: one
descriptor with identifier `5`, followed by the terminator and four data
bytes. -/
def c1ObjectsFile : ObjectsDataFile :=
  ⟨[0], encU32 5 ++ encU32 36 ++ encU32 4 ++ encU32 0 ++
    List.replicate 16 0 ++ [0, 0, 0, 0] ++ [1, 2, 3, 4]⟩

/-- The index file used to show the enumeration crash: a single 48-byte
page whose one retained sub-page entry is logical page 1, which the
mapping table sends to physical page 50 - far beyond the end of the file,
so `GetMappedPage` logs a warning and returns `None`. -/
def c1IndexFile : IndexBinaryTreeFile := ⟨[0, 50], c7Page0⟩

/-- Claim C1: the claim describes the intended skip-on-failure policy (a
record-retrieval failure reports the failure for that key only and
returns no record; a sub-page read failure must not abort the `GetKeys`
enumeration).  The code violates it in two places.  (a) When
`GetObjectDescriptor` finds no identifier match (key `"N.0.7.4"` asks for
identifier 7 but only 5 exists) or a size mismatch (key `"N.0.5.9"`
declares size 9 but the descriptor holds 4), `GetObjectRecordByKey`
dereferences the logged `None` and crashes with `AttributeError` instead
of returning no record; only the unmapped-page case (mapping to a page
beyond the file) returns no record.  (b) During key enumeration a
sub-page whose mapped page cannot be read makes
`_GetKeysFromIndexPage(None)` crash with `AttributeError`, aborting the
whole enumeration after the keys yielded so far. -/
theorem C1_failure_propagation_evidence :
    c1ObjectsFile.GetObjectRecordByKey "N.0.7.4" =
      .error .attributeError ∧
    c1ObjectsFile.GetObjectRecordByKey "N.0.5.9" =
      .error .attributeError ∧
    (⟨[5], c1ObjectsFile.fileBytes⟩ : ObjectsDataFile).GetObjectRecordByKey
      "N.0.7.4" = .ok none ∧
    c1IndexFile.GetMappedPage 0 =
      .ok (some ⟨44236, 0, 0, 0, 1, [1, 0], [1], ["\\A"], 2, 6, 4, 4⟩) ∧
    c1IndexFile.GetMappedPage 1 = .ok none ∧
    GetKeysFromIndexPage c1IndexFile 2
        ⟨44236, 0, 0, 0, 1, [1, 0], [1], ["\\A"], 2, 6, 4, 4⟩ =
      (["\\A"], some .attributeError) :=
  ⟨rfl, rfl, rfl, rfl, rfl, rfl⟩

/-- Claim C5: an object record whose `data_size` exactly equals
`PAGE_SIZE - data_offset` is satisfied by a single page read - the loop
performs exactly one `GetMappedPage`/`ReadObjectRecordData` iteration, at
`(page_number, data_offset)`, and touches no continuation page; a record
one byte larger performs exactly one additional continuation-page read, of
the next page number with data offset `0`.  (A record with data and a
descriptor has `data_offset < PAGE_SIZE`; the page must actually hold the
declared bytes, hence the file-length side conditions.) -/
theorem C5_page_boundary :
    (∀ (f : ObjectsDataFile) (pn rid ds : Nat) (page : ObjectsDataPage)
      (d : ObjectDescriptor),
      f.GetMappedPage pn false = .ok (some page) →
      GetObjectDescriptor page.object_descriptors rid ds = some d →
      d.data_offset < PAGE_SIZE →
      ds = PAGE_SIZE - d.data_offset →
      page.page_offset + PAGE_SIZE ≤ f.fileBytes.length →
      GetObjectRecordLoop f rid (ds + 1) ds pn false =
        .ok (some
          ([(f.fileBytes.drop (page.page_offset + d.data_offset)).take ds],
            [(pn, d.data_offset)]))) ∧
    (∀ (f : ObjectsDataFile) (pn rid ds : Nat) (page page2 : ObjectsDataPage)
      (d : ObjectDescriptor),
      f.GetMappedPage pn false = .ok (some page) →
      GetObjectDescriptor page.object_descriptors rid ds = some d →
      d.data_offset < PAGE_SIZE →
      ds = PAGE_SIZE - d.data_offset + 1 →
      page.page_offset + PAGE_SIZE ≤ f.fileBytes.length →
      f.GetMappedPage (pn + 1) true = .ok (some page2) →
      page2.page_offset < f.fileBytes.length →
      GetObjectRecordLoop f rid (ds + 1) ds pn false =
        .ok (some
          ([(f.fileBytes.drop (page.page_offset + d.data_offset)).take
              (PAGE_SIZE - d.data_offset),
            (f.fileBytes.drop page2.page_offset).take 1],
            [(pn, d.data_offset), (pn + 1, 0)]))) := by
  have hps : PAGE_SIZE = 8192 := rfl
  constructor
  · intro f pn rid ds page d hmp hdesc hoff hds hlen
    obtain ⟨k, hk⟩ : ∃ k, ds = k + 1 := ⟨ds - 1, by omega⟩
    subst hk
    rw [GetObjectRecordLoop, if_neg (Nat.succ_ne_zero k), hmp]
    dsimp only
    rw [if_neg Bool.false_ne_true, hdesc]
    dsimp only
    simp only [ReadObjectRecordData]
    rw [if_pos (by omega : d.data_offset ≤ PAGE_SIZE)]
    rw [if_neg (by omega : ¬ PAGE_SIZE - d.data_offset < k + 1)]
    dsimp only
    have hseglen :
        ((f.fileBytes.drop (page.page_offset + d.data_offset)).take
          (k + 1)).length = k + 1 := by
      rw [List.length_take, List.length_drop]
      omega
    rw [if_neg (fun hc => by rw [hc] at hseglen; simp at hseglen)]
    rw [hseglen, Nat.sub_self]
    rw [GetObjectRecordLoop, if_pos rfl]
  · intro f pn rid ds page page2 d hmp hdesc hoff hds hlen hmp2 hp2
    subst hds
    rw [GetObjectRecordLoop, if_neg (Nat.succ_ne_zero _), hmp]
    dsimp only
    rw [if_neg Bool.false_ne_true, hdesc]
    dsimp only
    simp only [ReadObjectRecordData]
    rw [if_pos (by omega : d.data_offset ≤ PAGE_SIZE)]
    rw [if_pos (by omega :
      PAGE_SIZE - d.data_offset < PAGE_SIZE - d.data_offset + 1)]
    dsimp only
    have hseg1len :
        ((f.fileBytes.drop (page.page_offset + d.data_offset)).take
          (PAGE_SIZE - d.data_offset)).length = PAGE_SIZE - d.data_offset := by
      rw [List.length_take, List.length_drop]
      omega
    rw [if_neg (fun hc => by
      rw [hc] at hseg1len
      simp at hseg1len
      omega)]
    rw [hseg1len]
    have hone : PAGE_SIZE - d.data_offset + 1 - (PAGE_SIZE - d.data_offset) = 1 := by
      omega
    rw [hone]
    rw [GetObjectRecordLoop, if_neg (by omega : ¬ (1 : Nat) = 0), hmp2]
    dsimp only
    rw [if_pos rfl]
    simp only [ReadObjectRecordData]
    rw [if_pos (by omega : (0 : Nat) ≤ PAGE_SIZE)]
    rw [if_neg (by omega : ¬ PAGE_SIZE - 0 < 1)]
    dsimp only
    rw [Nat.add_zero]
    have hseg2len :
        ((f.fileBytes.drop page2.page_offset).take 1).length = 1 := by
      rw [List.length_take, List.length_drop]
      omega
    rw [if_neg (fun hc => by rw [hc] at hseg2len; simp at hseg2len)]
    rw [hseg2len, Nat.sub_self]
    obtain ⟨m, hm⟩ : ∃ m, PAGE_SIZE - d.data_offset = m + 1 :=
      ⟨PAGE_SIZE - d.data_offset - 1, by omega⟩
    rw [hm]
    rw [GetObjectRecordLoop, if_pos rfl]

def c5DescriptorChunkA : List Nat :=
  encU32 7 ++ encU32 8191 ++ encU32 1 ++ encU32 0 ++ List.replicate 16 0

def c5FileA : ObjectsDataFile :=
  ⟨[0, 0], (c5DescriptorChunkA ++ List.replicate 8159 0) ++ [42]⟩

theorem c5FileA_length : c5FileA.fileBytes.length = 8192 := by
  show ((c5DescriptorChunkA ++ List.replicate 8159 0) ++ [42]).length = 8192
  rw [List.length_append, List.length_append, List.length_replicate,
    show c5DescriptorChunkA.length = 32 from by decide]
  rfl

theorem c5FileA_getMappedPage :
    c5FileA.GetMappedPage 0 false = .ok (some ⟨0, [⟨7, 8191, 1, 0⟩]⟩) := by
  rw [ObjectsDataFile.GetMappedPage]
  have hm : c5FileA.mappings[0]? = some 0 := rfl
  rw [hm]
  simp only [ObjectsDataFile.GetPage]
  rw [if_neg (by rw [c5FileA_length]; norm_num [PAGE_SIZE])]
  rw [if_neg Bool.false_ne_true]
  rw [Nat.zero_mul, List.drop_zero]
  rfl

def c5DescriptorChunkB : List Nat :=
  encU32 7 ++ encU32 8191 ++ encU32 2 ++ encU32 0 ++ List.replicate 16 0

def c5FileB : ObjectsDataFile :=
  ⟨[0, 0], (c5DescriptorChunkB ++ List.replicate 8159 0) ++ [42]⟩

theorem c5FileB_length : c5FileB.fileBytes.length = 8192 := by
  show ((c5DescriptorChunkB ++ List.replicate 8159 0) ++ [42]).length = 8192
  rw [List.length_append, List.length_append, List.length_replicate,
    show c5DescriptorChunkB.length = 32 from by decide]
  rfl

theorem c5FileB_getMappedPage :
    c5FileB.GetMappedPage 0 false = .ok (some ⟨0, [⟨7, 8191, 2, 0⟩]⟩) := by
  rw [ObjectsDataFile.GetMappedPage]
  have hm : c5FileB.mappings[0]? = some 0 := rfl
  rw [hm]
  simp only [ObjectsDataFile.GetPage]
  rw [if_neg (by rw [c5FileB_length]; norm_num [PAGE_SIZE])]
  rw [if_neg Bool.false_ne_true]
  rw [Nat.zero_mul, List.drop_zero]
  rfl

theorem c5FileB_getMappedPage_cont :
    c5FileB.GetMappedPage 1 true = .ok (some ⟨0, []⟩) := by
  rw [ObjectsDataFile.GetMappedPage]
  have hm : c5FileB.mappings[1]? = some 0 := rfl
  rw [hm]
  simp only [ObjectsDataFile.GetPage]
  rw [if_neg (by rw [c5FileB_length]; norm_num [PAGE_SIZE])]
  rw [if_pos trivial]
  rfl

/-- Concrete instantiation of `C5_page_boundary`: with `data_offset 8191`
and `data_size 1` (exactly the page remainder) the loop performs the single
read `(0, 8191)`; with `data_size 2` (one byte more) it additionally reads
`(1, 0)`. -/
theorem C5_page_boundary_witness :
    GetObjectRecordLoop c5FileA 7 (1 + 1) 1 0 false =
      .ok (some ([(c5FileA.fileBytes.drop (0 + 8191)).take 1],
        [(0, 8191)])) ∧
    GetObjectRecordLoop c5FileB 7 (2 + 1) 2 0 false =
      .ok (some
        ([(c5FileB.fileBytes.drop (0 + 8191)).take (PAGE_SIZE - 8191),
          (c5FileB.fileBytes.drop 0).take 1],
          [(0, 8191), (1, 0)])) :=
  ⟨C5_page_boundary.1 c5FileA 0 7 1 ⟨0, [⟨7, 8191, 1, 0⟩]⟩ ⟨7, 8191, 1, 0⟩
      c5FileA_getMappedPage rfl (by decide) (by decide)
      (by rw [c5FileA_length]; decide),
    C5_page_boundary.2 c5FileB 0 7 2 ⟨0, [⟨7, 8191, 2, 0⟩]⟩ ⟨0, []⟩
      ⟨7, 8191, 2, 0⟩
      c5FileB_getMappedPage rfl (by decide) (by decide)
      (by rw [c5FileB_length]; decide)
      c5FileB_getMappedPage_cont
      (by rw [c5FileB_length]; decide)⟩

/-! ## Class definition records: `ObjectRecord._CLASS_DEFINITION_HEADER` -/

/-- `construct.Bytes(n)`: exactly `n` bytes from the stream, or failure. -/
def parseBytes (n : Nat) (data : List Nat) : Option (List Nat × List Nat) :=
  if (data.take n).length < n then none
  else some (data.take n, data.drop n)

/-- A sequence of `n` `(name_offset, data_offset)` `uint32le` pairs (the
property descriptor array). -/
def parseU32PairSeq : Nat → List Nat → Option (List (Nat × Nat) × List Nat)
  | 0, rest => some ([], rest)
  | n + 1, data =>
      match parseU32 data with
      | none => none
      | some (a, r1) =>
          match parseU32 r1 with
          | none => none
          | some (b, r2) =>
              match parseU32PairSeq n r2 with
              | none => none
              | some (ps, r3) => some ((a, b) :: ps, r3)

/-- The decoded `class_definition_header` construct. -/
structure ClassDefinitionHeader where
  unknown1 : Nat
  class_name_offset : Nat
  default_value_size : Nat
  super_class_name_block_size : Nat
  super_class_name_block_data : List Nat
  qualifiers_block_size : Nat
  qualifiers_block_data : List Nat
  number_of_property_descriptors : Nat
  property_descriptors : List (Nat × Nat)
  default_value_data : List Nat
  properties_block_size : Nat
  properties_block_data : List Nat
deriving DecidableEq, Repr

/-- `ObjectRecord._CLASS_DEFINITION_HEADER.parse`: one flag byte, three
`uint32le` values, a length-prefixed super-class-name block and qualifiers
block (the source reads `size - 4` bytes; a declared size below 4 makes
the Python length negative, which never matches the stream and raises
`FieldError`), the property descriptor array, `default_value_size` bytes
of default-value data, then the properties block, whose byte count is the
length prefix masked with `0x7ffffff` - a 27-bit mask with seven `f`
digits in the source, in contrast with the 31-bit `0x7fffffff` mask the
same class uses when printing the size. -/
def parseClassDefinitionHeader (data : List Nat) :
    Option ClassDefinitionHeader := do
  let (unknown1, r0) ←
    match data with
    | [] => none
    | b :: r => some (b, r)
  let (class_name_offset, r1) ← parseU32 r0
  let (default_value_size, r2) ← parseU32 r1
  let (super_class_name_block_size, r3) ← parseU32 r2
  if super_class_name_block_size < 4 then failure
  let (super_class_name_block_data, r4) ←
    parseBytes (super_class_name_block_size - 4) r3
  let (qualifiers_block_size, r5) ← parseU32 r4
  if qualifiers_block_size < 4 then failure
  let (qualifiers_block_data, r6) ←
    parseBytes (qualifiers_block_size - 4) r5
  let (number_of_property_descriptors, r7) ← parseU32 r6
  let (property_descriptors, r8) ←
    parseU32PairSeq number_of_property_descriptors r7
  let (default_value_data, r9) ← parseBytes default_value_size r8
  let (properties_block_size, r10) ← parseU32 r9
  let (properties_block_data, _r11) ←
    parseBytes (properties_block_size &&& 0x7ffffff) r10
  pure {
    unknown1 := unknown1
    class_name_offset := class_name_offset
    default_value_size := default_value_size
    super_class_name_block_size := super_class_name_block_size
    super_class_name_block_data := super_class_name_block_data
    qualifiers_block_size := qualifiers_block_size
    qualifiers_block_data := qualifiers_block_data
    number_of_property_descriptors := number_of_property_descriptors
    property_descriptors := property_descriptors
    default_value_data := default_value_data
    properties_block_size := properties_block_size
    properties_block_data := properties_block_data }

/-- A minimal class-definition header whose `properties_block_size` length
prefix is `0x08000000` (bit 27 set): empty name and qualifiers blocks, no
property descriptors, no default-value data, no properties-block bytes. -/
def c2ClassDefinitionData : List Nat :=
  [0] ++ encU32 0 ++ encU32 0 ++ encU32 4 ++ encU32 4 ++ encU32 0 ++
    encU32 134217728

/-- Claim C2: the claim (and the spec) state that the properties-block
byte count is the length prefix masked with `0x7FFFFFFF`.  The source
masks with `0x7ffffff` (27 bits).  On a record whose prefix is
`0x08000000` the decoder therefore reads `0` properties-block bytes where
the claimed mask demands `0x08000000`; the code contradicts its own debug
output, which displays the size masked with `0x7fffffff`. -/
theorem C2_properties_block_mask :
    (parseClassDefinitionHeader c2ClassDefinitionData).map
        (fun h => (h.properties_block_size, h.properties_block_data.length)) =
      some (134217728, 0) ∧
    134217728 &&& 0x7fffffff = 134217728 ∧
    134217728 &&& 0x7ffffff = 0 ∧
    (0 : Nat) ≠ 134217728 :=
  ⟨rfl, by decide, by decide, by decide⟩

end WmiRepository
